import Mathlib

/-
Verification development for the browser client `frontend/app.js` of the
business-plan agent UI.  The JavaScript source is shallowly embedded:
JS values parsed from JSON are modelled by the inductive type `JVal`
(JS `undefined` is modelled by `Option.none` at access sites), strings
inside the stream pipeline are modelled as `List Char`, byte streams as
`List Nat`, and the DOM/localStorage-visible client state as the
structure `AppState`.  All definitions are executable.
-/

namespace App

/-- A JSON value as produced by `JSON.parse`.  `undefined` never occurs
inside a parsed value; absent object fields are `Option.none` at the
access site (`getField`).  Numeric values are modelled as integers: no
claim in this development observes a non-integral numeric value. -/
inductive JVal where
  | jnull : JVal
  | jbool : Bool → JVal
  | jnum : Int → JVal
  | jstr : String → JVal
  | jarr : List JVal → JVal
  | jobj : List (String × JVal) → JVal

/-- JS property access `o[k]` for the fixed keys used by the client;
`none` models `undefined` (non-objects and missing keys). -/
def getField : JVal → String → Option JVal
  | .jobj fs, k => (fs.find? (fun p => p.1 == k)).map (fun p => p.2)
  | _, _ => none

/-- JS truthiness of a `JVal` (`undefined` is handled by `truthyO`). -/
def truthy : JVal → Bool
  | .jnull => false
  | .jbool b => b
  | .jnum n => decide (n ≠ 0)
  | .jstr s => decide (s ≠ "")
  | .jarr _ => true
  | .jobj _ => true

/-- JS truthiness of a possibly-`undefined` value. -/
def truthyO : Option JVal → Bool
  | none => false
  | some v => truthy v

mutual
/-- JS `String(v)` conversion: `null`, booleans and integers print the JS
way, arrays join their elements with `","` (`Array.prototype.toString`),
plain parsed objects print as `"[object Object]"`. -/
def jsToString : JVal → String
  | .jnull => "null"
  | .jbool true => "true"
  | .jbool false => "false"
  | .jnum n => toString n
  | .jstr s => s
  | .jarr xs => String.intercalate "," (jsArrElems xs)
  | .jobj _ => "[object Object]"

/-- Element conversion used by `Array.prototype.join`: `null` becomes the
empty string, every other element converts via `String(...)`. -/
def jsElemStr : JVal → String
  | .jnull => ""
  | .jbool b => jsToString (.jbool b)
  | .jnum n => jsToString (.jnum n)
  | .jstr s => jsToString (.jstr s)
  | .jarr xs => jsToString (.jarr xs)
  | .jobj fs => jsToString (.jobj fs)

def jsArrElems : List JVal → List String
  | [] => []
  | v :: vs => jsElemStr v :: jsArrElems vs
end

mutual
/-- Stand-in for `JSON.stringify(v, null, 2)`: a total serialisation of
`JVal`.  It is exact up to formatting (indentation and string escaping
are not reproduced); no theorem below inspects its output — it only
feeds diagnostic log text. -/
def jsonStringify : JVal → String
  | .jnull => "null"
  | .jbool true => "true"
  | .jbool false => "false"
  | .jnum n => toString n
  | .jstr s => "\"" ++ s ++ "\""
  | .jarr xs => "[" ++ String.intercalate "," (jsonStringifyList xs) ++ "]"
  | .jobj fs => "\x7b" ++ String.intercalate "," (jsonStringifyFields fs) ++ "\x7d"

def jsonStringifyList : List JVal → List String
  | [] => []
  | v :: vs => jsonStringify v :: jsonStringifyList vs

def jsonStringifyFields : List (String × JVal) → List String
  | [] => []
  | f :: fs => ("\"" ++ f.1 ++ "\":" ++ jsonStringify f.2) :: jsonStringifyFields fs
end

/-- The character class removed by JS `String.prototype.trim`
(ECMA-262 WhiteSpace plus LineTerminator). -/
def isJsWs (c : Char) : Bool :=
  decide (c.toNat ∈ [0x9, 0xA, 0xB, 0xC, 0xD, 0x20, 0xA0, 0x1680, 0x2000, 0x2001,
    0x2002, 0x2003, 0x2004, 0x2005, 0x2006, 0x2007, 0x2008, 0x2009, 0x200A,
    0x2028, 0x2029, 0x202F, 0x205F, 0x3000, 0xFEFF])

/-- JS `s.trim()` on a character list. -/
def jsTrimL (l : List Char) : List Char :=
  ((l.dropWhile isJsWs).reverse.dropWhile isJsWs).reverse

/-- JS `s.trim()` on a `String`. -/
def jsTrimS (s : String) : String := String.mk (jsTrimL s.data)

/-- `truncate` from app.js (line 234): keep at most `n` characters and
append an ellipsis when something was cut. -/
def truncateJs (s : String) (n : Nat) : String :=
  if s.length ≤ n then s else s.take n ++ "…"

/-
JSON.parse model.  A standard recursive-descent parser over `List Char`,
fuelled for termination.  Only its success/failure split and its output
on concrete inputs are used by the theorems; numeric values keep their
integer part (no claim observes a fractional value).
-/

/-- JSON insignificant whitespace. -/
def jsonWsChar (c : Char) : Bool := c = ' ' || c = '\t' || c = '\n' || c = '\r'

def skipWs (l : List Char) : List Char := l.dropWhile jsonWsChar

def hexVal : Char → Option Nat
  | c =>
    if '0' ≤ c ∧ c ≤ '9' then some (c.toNat - 48)
    else if 'a' ≤ c ∧ c ≤ 'f' then some (c.toNat - 87)
    else if 'A' ≤ c ∧ c ≤ 'F' then some (c.toNat - 55)
    else none

/-- Body of a JSON string after the opening quote: returns the decoded
characters and the remaining input after the closing quote. -/
def parseStrBody : List Char → Option (List Char × List Char)
  | [] => none
  | c :: rest =>
    if c = '"' then some ([], rest)
    else if c = '\\' then
      match rest with
      | [] => none
      | e :: rest2 =>
        if e = '"' ∨ e = '\\' ∨ e = '/' then
          (parseStrBody rest2).map (fun p => (e :: p.1, p.2))
        else if e = 'b' then (parseStrBody rest2).map (fun p => ('\x08' :: p.1, p.2))
        else if e = 'f' then (parseStrBody rest2).map (fun p => ('\x0c' :: p.1, p.2))
        else if e = 'n' then (parseStrBody rest2).map (fun p => ('\n' :: p.1, p.2))
        else if e = 'r' then (parseStrBody rest2).map (fun p => ('\r' :: p.1, p.2))
        else if e = 't' then (parseStrBody rest2).map (fun p => ('\t' :: p.1, p.2))
        else if e = 'u' then
          match rest2 with
          | h1 :: h2 :: h3 :: h4 :: rest3 =>
            match hexVal h1, hexVal h2, hexVal h3, hexVal h4 with
            | some a, some b, some c2, some d =>
              (parseStrBody rest3).map (fun p =>
                (Char.ofNat (((a * 16 + b) * 16 + c2) * 16 + d) :: p.1, p.2))
            | _, _, _, _ => none
          | _ => none
        else none
    else if c.toNat < 0x20 then none
    else (parseStrBody rest).map (fun p => (c :: p.1, p.2))

def natOfDigits (ds : List Char) : Nat :=
  ds.foldl (fun acc c => acc * 10 + (c.toNat - 48)) 0

def expTail (r : List Char) : Option (List Char) :=
  let r2 := match r with
    | '+' :: t => t
    | '-' :: t => t
    | _ => r
  let p : List Char × List Char := r2.span (fun c => c.isDigit)
  if p.1 = [] then none else some p.2

/-- A JSON number token (sign, integer part, optional fraction and
exponent).  The stored value is the signed integer part. -/
def parseNum (cs : List Char) : Option (JVal × List Char) :=
  let sp : Bool × List Char := match cs with
    | '-' :: r => (true, r)
    | _ => (false, cs)
  let p : List Char × List Char := sp.2.span (fun c => c.isDigit)
  if p.1 = [] then none
  else if 1 < p.1.length ∧ p.1.head? = some '0' then none
  else
    let afterFrac : Option (List Char) :=
      match p.2 with
      | '.' :: r2 =>
        let q : List Char × List Char := r2.span (fun c => c.isDigit)
        if q.1 = [] then none else some q.2
      | _ => some p.2
    match afterFrac with
    | none => none
    | some r3 =>
      let afterExp : Option (List Char) :=
        match r3 with
        | 'e' :: r4 => expTail r4
        | 'E' :: r4 => expTail r4
        | _ => some r3
      match afterExp with
      | none => none
      | some rest =>
        let m : Int := Int.ofNat (natOfDigits p.1)
        some (.jnum (if sp.1 then -m else m), rest)

mutual
def parseJ : Nat → List Char → Option (JVal × List Char)
  | 0, _ => none
  | fuel + 1, cs =>
    match skipWs cs with
    | 'n' :: 'u' :: 'l' :: 'l' :: rest => some (.jnull, rest)
    | 't' :: 'r' :: 'u' :: 'e' :: rest => some (.jbool true, rest)
    | 'f' :: 'a' :: 'l' :: 's' :: 'e' :: rest => some (.jbool false, rest)
    | '"' :: rest => (parseStrBody rest).map (fun p => (.jstr (String.mk p.1), p.2))
    | '[' :: rest =>
      (match skipWs rest with
       | ']' :: rest2 => some (.jarr [], rest2)
       | _ => (parseArrItems fuel (skipWs rest)).map (fun p => (.jarr p.1, p.2)))
    | '\x7b' :: rest =>
      (match skipWs rest with
       | '\x7d' :: rest2 => some (.jobj [], rest2)
       | _ => (parseObjItems fuel (skipWs rest)).map (fun p => (.jobj p.1, p.2)))
    | cs2 => parseNum cs2

def parseArrItems : Nat → List Char → Option (List JVal × List Char)
  | 0, _ => none
  | fuel + 1, cs =>
    match parseJ fuel cs with
    | none => none
    | some (v, rest) =>
      match skipWs rest with
      | ',' :: rest2 => (parseArrItems fuel rest2).map (fun p => (v :: p.1, p.2))
      | ']' :: rest2 => some ([v], rest2)
      | _ => none

def parseObjItems : Nat → List Char → Option (List (String × JVal) × List Char)
  | 0, _ => none
  | fuel + 1, cs =>
    match skipWs cs with
    | '"' :: rest =>
      (match parseStrBody rest with
       | none => none
       | some (key, rest2) =>
         match skipWs rest2 with
         | ':' :: rest3 =>
           (match parseJ fuel rest3 with
            | none => none
            | some (v, rest4) =>
              match skipWs rest4 with
              | ',' :: rest5 =>
                (parseObjItems fuel rest5).map (fun p => ((String.mk key, v) :: p.1, p.2))
              | '\x7d' :: rest5 => some ([(String.mk key, v)], rest5)
              | _ => none)
         | _ => none)
    | _ => none
end

/-- `JSON.parse` on a character list: `none` models a thrown
`SyntaxError`.  The fuel is an upper bound on recursion depth; it is
ample for every input (each unit of fuel spent on descent corresponds
to at least one input character). -/
def jsonParse (l : List Char) : Option JVal :=
  match parseJ (2 * l.length + 2) l with
  | some (v, rest) => if skipWs rest = [] then some v else none
  | none => none

/-
SSE frame parsing: `parseSseFrame` (app.js lines 442-463).
-/

/-- One parsed SSE frame, the value handed to `onEvent`. -/
structure SseFrame where
  id : String
  event : String
  data : JVal

/-- JS `s.replace(/\r\n/g, "\n")`: a single left-to-right pass replacing
non-overlapping `"\r\n"` pairs (replaced output is not rescanned). -/
def replCRLF : List Char → List Char
  | [] => []
  | [c] => [c]
  | a :: b :: rest =>
    if a = '\r' ∧ b = '\n' then '\n' :: replCRLF rest
    else a :: replCRLF (b :: rest)

/-- JS `s.split("\n")`. -/
def splitOnNl : List Char → List (List Char)
  | [] => [[]]
  | c :: rest =>
    if c = '\n' then [] :: splitOnNl rest
    else
      match splitOnNl rest with
      | [] => [[c]]
      | l :: ls => (c :: l) :: ls

/-- Accumulator of the line loop in `parseSseFrame`. -/
structure SseAcc where
  ev : List Char
  ds : List (List Char)
  fid : List Char

/-- One iteration of the line loop in `parseSseFrame` (app.js 449-455):
skip empty and comment lines, then dispatch on the `event:`/`data:`/`id:`
prefixes (`startsWith` is expressed as equality of a `take`). -/
def parseSseLine (acc : SseAcc) (line : List Char) : SseAcc :=
  if line = [] then acc
  else if line.take 1 = [':'] then acc
  else if line.take 6 = "event:".data then { acc with ev := jsTrimL (line.drop 6) }
  else if line.take 5 = "data:".data then { acc with ds := acc.ds ++ [jsTrimL (line.drop 5)] }
  else if line.take 3 = "id:".data then { acc with fid := jsTrimL (line.drop 3) }
  else acc

/-- The `data` field of a frame (app.js 457-461): the newline-join of the
`data:` lines, parsed as JSON when non-empty, kept as the raw string when
`JSON.parse` fails. -/
def sseDataVal (dataRaw : List Char) : JVal :=
  if dataRaw = [] then .jstr ""
  else
    match jsonParse dataRaw with
    | some v => v
    | none => .jstr (String.mk dataRaw)

/-- `parseSseFrame` (app.js 442-463). -/
def parseSseFrame (frameText : List Char) : SseFrame :=
  let lines := splitOnNl (replCRLF frameText)
  let acc := lines.foldl parseSseLine ⟨[], [], []⟩
  let dataRaw := List.intercalate ['\n'] acc.ds
  { id := String.mk acc.fid, event := String.mk acc.ev, data := sseDataVal dataRaw }

/-
Incremental UTF-8 decoding: a byte-at-a-time model of
`new TextDecoder("utf-8").decode(chunk, stream flag on)`.  The decoder
state is the byte list of the currently incomplete sequence (lead byte
first).  On valid encodings this coincides exactly with `TextDecoder`;
on erroneous bytes it emits U+FFFD (the replacement policy for invalid
input is simplified and is never exercised by the theorems).
-/

/-- Expected total length of a UTF-8 sequence from its lead byte
(0 for an invalid lead). -/
def utf8Len (b : Nat) : Nat :=
  if b < 0x80 then 1
  else if b < 0xC0 then 0
  else if b < 0xE0 then 2
  else if b < 0xF0 then 3
  else if b < 0xF8 then 4
  else 0

def isCont (b : Nat) : Bool := decide (0x80 ≤ b ∧ b < 0xC0)

/-- Scalar value of a complete UTF-8 sequence (lead byte first). -/
def decodeSeq : List Nat → Char
  | [b1, b2] => Char.ofNat ((b1 - 0xC0) * 64 + (b2 - 0x80))
  | [b1, b2, b3] => Char.ofNat ((b1 - 0xE0) * 4096 + (b2 - 0x80) * 64 + (b3 - 0x80))
  | [b1, b2, b3, b4] =>
    Char.ofNat ((b1 - 0xF0) * 0x40000 + (b2 - 0x80) * 4096 + (b3 - 0x80) * 64 + (b4 - 0x80))
  | _ => Char.ofNat 0xFFFD

/-- Decoder step on a byte with empty pending state. -/
def decFresh (b : Nat) : List Char × List Nat :=
  if b < 0x80 then ([Char.ofNat b], [])
  else if utf8Len b = 0 then ([Char.ofNat 0xFFFD], [])
  else ([], [b])

/-- Decoder step: consume one byte given the pending incomplete
sequence. -/
def decStep : List Nat → Nat → List Char × List Nat
  | [], b => decFresh b
  | l :: pend, b =>
    if isCont b then
      let p2 := (l :: pend) ++ [b]
      if p2.length = utf8Len l then ([decodeSeq p2], []) else ([], p2)
    else
      let f := decFresh b
      (Char.ofNat 0xFFFD :: f.1, f.2)

def decPush (acc : List Char × List Nat) (b : Nat) : List Char × List Nat :=
  let s := decStep acc.2 b
  (acc.1 ++ s.1, s.2)

/-- Decode one chunk starting from decoder state `st`: the emitted text
and the new state. -/
def decodeChunk (st : List Nat) (chunk : List Nat) : List Char × List Nat :=
  chunk.foldl decPush ([], st)

/-- UTF-8 encoding of one character. -/
def encodeChar (c : Char) : List Nat :=
  let n := c.toNat
  if n < 0x80 then [n]
  else if n < 0x800 then [0xC0 + n / 64, 0x80 + n % 64]
  else if n < 0x10000 then [0xE0 + n / 4096, 0x80 + (n / 64) % 64, 0x80 + n % 64]
  else [0xF0 + n / 0x40000, 0x80 + (n / 4096) % 64, 0x80 + (n / 64) % 64, 0x80 + n % 64]

/-- UTF-8 encoding of a string, as the byte sequence a server would send. -/
def utf8Encode (s : String) : List Nat := (s.data.map encodeChar).flatten

/-
`runStream`'s frame reassembly loop (app.js 504-527): per received chunk,
append the incrementally decoded text to the buffer, normalise CRLF with
one `replace(/\r\n/g, "\n")` pass over the whole buffer, then repeatedly
split off the text before the first `"\n\n"`; each piece is trimmed,
dropped if empty, and otherwise parsed with `parseSseFrame` and handed
to `onEvent`.
-/

/-- Greedy leftmost split of a buffer at `"\n\n"` separators: the list of
complete frame texts and the unterminated residual (the JS
`indexOf("\n\n")`/`slice` loop). -/
def splitFrames : List Char → List (List Char) × List Char
  | [] => ([], [])
  | [c] => ([], [c])
  | a :: b :: rest =>
    if a = '\n' ∧ b = '\n' then
      ([] :: (splitFrames rest).1, (splitFrames rest).2)
    else
      match splitFrames (b :: rest) with
      | (f :: fs, r) => ((a :: f) :: fs, r)
      | ([], r) => ([], a :: r)

/-- Per-frame postprocessing of the loop body (app.js 518-525): trim,
skip empty frames, parse the rest. -/
def emitFrames (fs : List (List Char)) : List SseFrame :=
  fs.filterMap (fun f =>
    let t := jsTrimL f
    if t = [] then none else some (parseSseFrame t))

/-- State of the `runStream` read loop: decoder state, text buffer, and
the frames handed to `onEvent` so far. -/
structure RunStreamSt where
  dec : List Nat
  buf : List Char
  frames : List SseFrame

/-- Processing of one received chunk (app.js 509-526): append the
incrementally decoded text to the buffer, normalise CRLF over the whole
buffer, extract every complete frame, keep the residual buffered. -/
def processChunk (st : RunStreamSt) (chunk : List Nat) : RunStreamSt :=
  { dec := (decodeChunk st.dec chunk).2
    buf := (splitFrames (replCRLF (st.buf ++ (decodeChunk st.dec chunk).1))).2
    frames := st.frames
      ++ emitFrames (splitFrames (replCRLF (st.buf ++ (decodeChunk st.dec chunk).1))).1 }

/-- The frames `runStream` delivers to `onEvent` for a given sequence of
received byte chunks.  Unterminated trailing bytes (decoder state and
text buffer) are discarded at end of stream, exactly as in the source
(the loop just breaks on `done`). -/
def runStreamFrames (chunks : List (List Nat)) : List SseFrame :=
  (chunks.foldl processChunk ⟨[], [], []⟩).frames

/-
Interrupt payload extraction (app.js 395-424) and thread-snapshot
helpers (app.js 426-439).
-/

/-- The four candidate locations probed by `extractInterruptPayload`, in
source order, after the JS `.filter(Boolean)` (truthiness filter). -/
def candidateList (o : JVal) : List JVal :=
  (([getField o "__interrupt__",
     (getField o "values").bind (fun v => getField v "__interrupt__"),
     getField o "interrupts",
     (getField o "values").bind (fun v => getField v "interrupts")].filterMap id).filter
    truthy)

/-- `Array.isArray(c) ? c[0] : c` — `none` models `undefined` (empty
array). -/
def firstOf : JVal → Option JVal
  | .jarr xs => xs.head?
  | v => some v

/-- `first?.value ?? first`: take the `value` field unless it is absent
or `null`. -/
def unwrapValue (first : JVal) : JVal :=
  match getField first "value" with
  | some .jnull => first
  | some v => v
  | none => first

/-- The candidate validity test of app.js line 413:
`payload.kind === "approval_request" || payload.question ||
payload.analysis_preview` (the last two are JS truthiness tests). -/
def validPayload (p : JVal) : Bool :=
  (match getField p "kind" with
   | some (.jstr s) => s == "approval_request"
   | _ => false)
    || truthyO (getField p "question")
    || truthyO (getField p "analysis_preview")

/-- Body of the candidate loop (app.js 405-416) for one candidate. -/
def tryCandidate (c : JVal) : Option JVal :=
  match firstOf c with
  | none => none
  | some first =>
    if truthy first then
      if truthy (unwrapValue first) then
        if validPayload (unwrapValue first) then some (unwrapValue first) else none
      else none
    else none

/-- `String(obj.status || "")` (app.js 419). -/
def statusStr (o : JVal) : String :=
  match getField o "status" with
  | some v => if truthy v then jsToString v else ""
  | none => ""

/-- The synthesized fallback payload of app.js line 420. -/
def defaultApproval : JVal :=
  .jobj [("kind", .jstr "approval_request"), ("question", .jstr "承認しますか？"),
    ("options", .jarr [.jstr "y", .jstr "n", .jstr "retry"]), ("analysis_preview", .jarr [])]

/-- `extractInterruptPayload` (app.js 395-424). -/
def extractInterruptPayload (o : JVal) : Option JVal :=
  if truthy o then
    match (candidateList o).findSome? tryCandidate with
    | some p => some p
    | none => if statusStr o == "interrupted" then some defaultApproval else none
  else none

/-- `extractFinalReportFromThread` (app.js 426-433). -/
def extractFinalReportFromThread (t : JVal) : String :=
  match getField t "values" with
  | some v =>
    if truthy v then
      match getField v "final_report" with
      | some (.jstr s) => if jsTrimS s ≠ "" then s else ""
      | _ => ""
    else ""
  | none => ""

/-- `extractCurrentStepFromThread` (app.js 435-439):
`String(values.current_step || "")`. -/
def extractCurrentStepFromThread (t : JVal) : String :=
  match getField t "values" with
  | some v =>
    if truthy v then
      match getField v "current_step" with
      | some sv => if truthy sv then jsToString sv else ""
      | none => ""
    else ""
  | none => ""

/-
SSE interpretation helpers (app.js 541-609).
-/

/-- `NODE_LABEL` (app.js 38-46). -/
def NODE_LABEL : String → Option String
  | "research_agent" => some "調査（research_agent）"
  | "tools" => some "検索（tools）"
  | "summary_agent" => some "要約（summary_agent）"
  | "market_agent" => some "市場分析（market_agent）"
  | "technical_agent" => some "技術検討（technical_agent）"
  | "human_approval" => some "承認待ち（human_approval）"
  | "report_agent" => some "レポート作成（report_agent）"
  | _ => none

/-- `obj.updates && typeof obj.updates === "object" ? obj.updates : obj`
(arrays also have `typeof === "object"`). -/
def updatesOf (o : JVal) : JVal :=
  match getField o "updates" with
  | some (.jobj fs) => .jobj fs
  | some (.jarr xs) => .jarr xs
  | _ => o

/-- `Object.keys` of a parsed value (only objects contribute keys that
can match a node identifier). -/
def objKeys : JVal → List String
  | .jobj fs => fs.map (fun p => p.1)
  | _ => []

/-- `pickNodeKeyFromUpdates` (app.js 542-551). -/
def pickNodeKeyFromUpdates (o : JVal) : String :=
  match o with
  | .jobj _ | .jarr _ =>
    match (objKeys (updatesOf o)).find? (fun k => (NODE_LABEL k).isSome) with
    | some k => k
    | none => ""
  | _ => ""

/-- `pickCurrentStepFromUpdates` (app.js 557-569): first entry of the
updates mapping whose value is an object with a non-blank string
`current_step`; the returned label is trimmed. -/
def pickCurrentStepFromUpdates (o : JVal) : String :=
  match o with
  | .jobj _ | .jarr _ =>
    let u := updatesOf o
    let found : Option String :=
      (match u with
       | .jobj fs =>
         fs.findSome? (fun kv =>
           match kv.2 with
           | .jobj _ =>
             (match getField kv.2 "current_step" with
              | some (.jstr s) => if jsTrimS s ≠ "" then some (jsTrimS s) else none
              | _ => none)
           | _ => none)
       | _ => none)
    match found with
    | some s => s
    | none => ""
  | _ => ""

/-- First non-nullish of `last?.content ?? last?.text ?? last?.message
?? last`. -/
def firstNonNullish (cands : List (Option JVal)) (dflt : JVal) : JVal :=
  match cands with
  | [] => dflt
  | some .jnull :: rest => firstNonNullish rest dflt
  | some v :: _ => v
  | none :: rest => firstNonNullish rest dflt

/-- `extractReadableOutputFromNodeState` (app.js 571-590). -/
def extractReadableOutputFromNodeState (ns : JVal) : String :=
  match ns with
  | .jobj _ | .jarr _ =>
    let fromMessages : Option String :=
      (["analysis_messages", "research_messages"].findSome? (fun key =>
        match getField ns key with
        | some (.jarr xs) =>
          (match xs.getLast? with
           | some lastv =>
             let content := firstNonNullish
               [getField lastv "content", getField lastv "text", getField lastv "message"] lastv
             (match content with
              | .jstr s => some s
              | v => some (jsonStringify v))
           | none => none)
        | _ => none))
    (match getField ns "final_report" with
     | some (.jstr s) =>
       if jsTrimS s ≠ "" then s
       else
         (match fromMessages with
          | some s2 => s2
          | none => jsonStringify ns)
     | _ =>
       (match fromMessages with
        | some s2 => s2
        | none => jsonStringify ns))
  | _ => ""

/-
Client state.  `AppState` gathers the module-level mutable variables of
app.js (`uiState`, `threadId`, `logItems`) together with the
DOM/localStorage-observable outputs the spec talks about: the persisted
thread id, the error banner, the approval card (visibility, question
text, preview payload), the work badge, and the report card text.
Wall-clock timestamps and the free-form status `<pre>` are not
modelled; no claim observes them.
-/

/-- The six UI states of app.js line 31. -/
inductive UiState where
  | idle | starting | waiting_approval | resuming | done | error
deriving DecidableEq

/-- One journal entry (timestamps are not modelled). -/
structure LogEntry where
  tag : String
  agent : String
  summary : String
  detail : String
  raw : Option JVal

/-- Positional constructor for `LogEntry`. -/
def mkLog (tag agent summary detail : String) (raw : Option JVal) : LogEntry :=
  ⟨tag, agent, summary, detail, raw⟩

/-- `MAX_LOG_ITEMS` (app.js line 22). -/
def MAX_LOG_ITEMS : Nat := 80

/-- `addLogEntry` (app.js 240-251) acting on the journal list:
`unshift` the new entry, then cut back to capacity with
`slice(0, MAX_LOG_ITEMS)` when over it. -/
def addLogEntry (e : LogEntry) (l : List LogEntry) : List LogEntry :=
  if MAX_LOG_ITEMS < (e :: l).length then (e :: l).take MAX_LOG_ITEMS else e :: l

structure AppState where
  uiState : UiState
  threadId : Option String
  storedThreadId : Option String
  errorBanner : Option String
  approvalVisible : Bool
  question : String
  preview : JVal
  workLabel : String
  reportText : Option String
  logs : List LogEntry

/-- The boot-time state of the module-level variables (before
`initAsync` runs), with `storedThreadId` abstracting what localStorage
holds under `agent_thread_id`. -/
def bootState (stored : Option String) : AppState :=
  { uiState := .idle
    threadId := none
    storedThreadId := stored
    errorBanner := none
    approvalVisible := false
    question := ""
    preview := .jarr []
    workLabel := "-"
    reportText := none
    logs := [] }

/-- `addLogEntry` as a state update. -/
def logM (e : LogEntry) (st : AppState) : AppState :=
  { st with logs := addLogEntry e st.logs }

/-- `setError` (app.js 90-99). -/
def setErrorM (m : Option String) (st : AppState) : AppState :=
  { st with errorBanner := m }

/-- `setUiState` (app.js 111-134): only the state value is modelled
(button enablement is a pure function of it). -/
def setUiStateM (s : UiState) (st : AppState) : AppState :=
  { st with uiState := s }

/-- `setWork` (app.js 106-109). -/
def setWorkM (s : String) (st : AppState) : AppState :=
  let s2 := if s = "" then "-" else s
  { st with workLabel := (NODE_LABEL s2).getD s2 }

/-- `payload.question || "承認しますか？"` rendered as text
(app.js 599). -/
def dispQuestion (p : JVal) : String :=
  match getField p "question" with
  | some v => if truthy v then jsToString v else "承認しますか？"
  | none => "承認しますか？"

/-- `payload.analysis_preview || []`, the value handed to
`renderPreview` (app.js 600). -/
def dispPreview (p : JVal) : JVal :=
  match getField p "analysis_preview" with
  | some v => if truthy v then v else .jarr []
  | none => .jarr []

/-- `showApprovalIfNeeded` (app.js 592-609). -/
def showApprovalIfNeeded (p : JVal) (st : AppState) : AppState :=
  if truthy p then
    if st.uiState = .waiting_approval then st
    else
      logM
        (mkLog "HITL" ((NODE_LABEL "human_approval").getD "")
          "承認待ちになりました（入力待ち）" (jsonStringify p) (some p))
        { st with
          uiState := .waiting_approval
          approvalVisible := true
          question := dispQuestion p
          preview := dispPreview p }
  else st

/-- `v ? String(v) : ""` for a possibly-undefined field. -/
def jsStrOrEmpty (x : Option JVal) : String :=
  match x with
  | some v => if truthy v then jsToString v else ""
  | none => ""

/-- Is `typeof raw === "object" && raw` satisfied (objects and arrays;
`null` is excluded by the truthiness test)? -/
def isObjLike : JVal → Bool
  | .jobj _ => true
  | .jarr _ => true
  | _ => false

/-- `valuesObj?.current_step ? String(...) : ""` (app.js 633-635; the
same expression recurs at 671 — for a non-object `raw` the optional
chaining also yields the empty string there). -/
def valuesStep (raw : JVal) : String :=
  if isObjLike raw then
    jsStrOrEmpty ((getField raw "values").bind (fun v => getField v "current_step"))
  else ""

/-- The work-badge update from a frame's `values.current_step`
(app.js 632-637). -/
def workStepped (raw : JVal) (st : AppState) : AppState :=
  if valuesStep raw ≠ "" then setWorkM (valuesStep raw) st else st

/-- `u[nodeKey] || an empty object` (app.js 652-654). -/
def agentNodeState (raw : JVal) (nodeKey : String) : JVal :=
  match getField (updatesOf raw) nodeKey with
  | some v => if truthy v then v else .jobj []
  | none => .jobj []

/-- The AGENT journal entry for a node-result frame (app.js 655-661). -/
def agentLog (raw : JVal) (nodeKey : String) : LogEntry :=
  mkLog "AGENT" ((NODE_LABEL nodeKey).getD nodeKey)
    (if truncateJs (extractReadableOutputFromNodeState (agentNodeState raw nodeKey)) 140 ≠ ""
     then truncateJs (extractReadableOutputFromNodeState (agentNodeState raw nodeKey)) 140
     else "(更新)")
    (if extractReadableOutputFromNodeState (agentNodeState raw nodeKey) ≠ ""
     then extractReadableOutputFromNodeState (agentNodeState raw nodeKey)
     else "(更新)")
    (some raw)

/-- The STATE journal entry for a `values` frame (app.js 673-678). -/
def stateLog (raw : JVal) : LogEntry :=
  mkLog "STATE" ((NODE_LABEL (valuesStep raw)).getD (valuesStep raw)) "状態更新（values）"
    (jsonStringify ((getField raw "values").getD raw)) (some raw)

/-- `handleSseEvent` (app.js 611-716) with `SHOW_NOISY_SSE = false`
(app.js 28): interrupt detection first, then noise suppression, work
badge updates, and the updates/values log entries.  The `setStatus`
debug panel is not modelled. -/
def handleSseEvent (ev : SseFrame) (st : AppState) : AppState :=
  match (if isObjLike ev.data then extractInterruptPayload ev.data else none) with
  | some p => showApprovalIfNeeded p st
  | none =>
    if ev.event = "metadata" ∨ ev.event = "ping" ∨ ev.event = "keepalive" then st
    else if ev.event = "updates" then
      (if isObjLike ev.data ∧ pickCurrentStepFromUpdates ev.data ≠ "" then
        setWorkM (pickCurrentStepFromUpdates ev.data) (workStepped ev.data st)
      else
        match pickNodeKeyFromUpdates ev.data with
        | "" => workStepped ev.data st
        | nodeKey => logM (agentLog ev.data nodeKey) (workStepped ev.data st))
    else if ev.event = "values" then
      (if valuesStep ev.data ≠ "" then logM (stateLog ev.data) (workStepped ev.data st)
       else workStepped ev.data st)
    else workStepped ev.data st

/-
Thread manager (app.js 340-371) and the two run use-cases
(app.js 734-841), as pure functions of an environment describing the
server's responses.
-/

/-- The server's response to `POST /threads`: HTTP success flag and the
`thread_id` field of the parsed body (`none` models an absent field). -/
structure CreateResp where
  ok : Bool
  threadIdVal : Option JVal

/-- `createThread` (app.js 340-357): throws on non-success and on a
missing/falsy `thread_id`. -/
def createThread (resp : CreateResp) : Except String String :=
  if resp.ok then
    match resp.threadIdVal with
    | some v =>
      if truthy v then .ok (jsToString v)
      else .error "thread create response has no thread_id"
    | none => .error "thread create response has no thread_id"
  else .error "thread create failed"

/-- `ensureThreadIdFromServer` (app.js 363-371): reuse the held id unless
`forceNew`; otherwise create, store, persist and journal the new one.
Errors propagate with the state unmodified. -/
def ensureThreadIdFromServer (forceNew : Bool) (resp : CreateResp) (st : AppState) :
    Except String (String × AppState) :=
  match (if forceNew then none else st.threadId) with
  | some t =>
    if t ≠ "" then .ok (t, st)
    else
      (match createThread resp with
       | .error m => .error m
       | .ok id =>
         .ok (id, logM
           (mkLog "THREAD" "" ("作成: thread_id=" ++ id) ("作成: thread_id=" ++ id) none)
           { st with threadId := some id, storedThreadId := some id }))
  | none =>
    match createThread resp with
    | .error m => .error m
    | .ok id =>
      .ok (id, logM
        (mkLog "THREAD" "" ("作成: thread_id=" ++ id) ("作成: thread_id=" ++ id) none)
        { st with threadId := some id, storedThreadId := some id })

/-- Environment of one run: the create-thread response (used by
`ensureThreadIdFromServer`), the frames the stream delivers, whether the
stream then fails (`some msg` models a rejected fetch/read, including an
abort), and the result of the authoritative `GET /threads/:id` fetch. -/
structure RunEnv where
  createResp : CreateResp
  streamFrames : List SseFrame
  streamErr : Option String
  fetchRes : Except String JVal

/-- `resetViewForRun` (app.js 721-726). -/
def resetViewForRun (st : AppState) : AppState :=
  { st with errorBanner := none, approvalVisible := false, reportText := none }

/-- The placeholder report text of the start path (app.js 781). -/
def noReportMsgStart : String :=
  "（最終レポートはまだ生成されていません。承認待ちになっていない場合はサーバ側ログを確認してください。）"

/-- The placeholder report text of the resume path (app.js 830). -/
def noReportMsgResume : String := "（最終レポートはまだ生成されていません。）"

/-- `if (currentStep) setWork(currentStep)` after the authoritative
fetch (app.js 768-769). -/
def stepWorked (t : JVal) (st : AppState) : AppState :=
  if extractCurrentStepFromThread t ≠ "" then setWorkM (extractCurrentStepFromThread t) st
  else st

/-- Shared tail of `start`/`resume` after the stream ends (app.js
765-791 resp. 814-840): one authoritative fetch, then resolve to
approval, done-with-report, or done-empty. -/
def finishRun (noReportMsg : String) (fetchRes : Except String JVal) (st : AppState) :
    Except (String × AppState) AppState :=
  match fetchRes with
  | .error m => .error (m, st)
  | .ok t =>
    match extractInterruptPayload t with
    | some p => .ok (showApprovalIfNeeded p (stepWorked t st))
    | none =>
      if extractFinalReportFromThread t = "" then
        .ok (logM (mkLog "DONE" "" "完了（最終レポートなし）" "完了（最終レポートなし）" none)
          { stepWorked t st with uiState := .done, reportText := some noReportMsg })
      else
        .ok (logM
          (mkLog "DONE" "" "完了（最終レポートが生成されました）" "完了（最終レポートが生成されました）" none)
          { stepWorked t st with
            uiState := .done
            reportText := some (extractFinalReportFromThread t) })

/-- The stream phase shared by both use-cases: frames are handed to
`handleSseEvent` in order; a stream failure aborts afterwards; a
frameless successful stream logs the WARN entry of app.js 532-538. -/
def streamPhase (env : RunEnv) (st : AppState) : Except (String × AppState) AppState :=
  match env.streamErr with
  | some m => .error (m, env.streamFrames.foldl (fun s ev => handleSseEvent ev s) st)
  | none =>
    if env.streamFrames.length = 0 then
      .ok (logM
        (mkLog "WARN" "" "SSEイベントが1件も届きませんでした。" "SSEイベントが1件も届きませんでした。" none)
        (env.streamFrames.foldl (fun s ev => handleSseEvent ev s) st))
    else .ok (env.streamFrames.foldl (fun s ev => handleSseEvent ev s) st)

/-- Body of `start` (app.js 734-792); errors carry the state at the
throw site. -/
def startBody (env : RunEnv) (st : AppState) : Except (String × AppState) AppState :=
  match ensureThreadIdFromServer true env.createResp (resetViewForRun st) with
  | .error m => .error (m, resetViewForRun st)
  | .ok (tid, st2) =>
    match streamPhase env
        (logM (mkLog "START" "" "開始" ("開始 / thread_id=" ++ tid) none)
          (setUiStateM .starting (setWorkM "-" st2))) with
    | .error e => .error e
    | .ok st5 => finishRun noReportMsgStart env.fetchRes st5

/-- Body of `resume` (app.js 794-841). -/
def resumeBody (decision : String) (env : RunEnv) (st : AppState) :
    Except (String × AppState) AppState :=
  match ensureThreadIdFromServer false env.createResp (resetViewForRun st) with
  | .error m => .error (m, resetViewForRun st)
  | .ok (tid, st2) =>
    match streamPhase env
        (logM (mkLog "RESUME" "" ("入力: " ++ decision)
            ("入力: " ++ decision ++ " / thread_id=" ++ tid) none)
          (setUiStateM .resuming st2)) with
    | .error e => .error e
    | .ok st5 => finishRun noReportMsgResume env.fetchRes st5

/-- `runWithUi` (app.js 843-854): clear the banner, run the body, and on
any exception enter the error state, show the banner and journal it. -/
def runWithUi (body : AppState → Except (String × AppState) AppState) (st : AppState) :
    AppState :=
  match body (setErrorM none st) with
  | .ok st2 => st2
  | .error (m, st2) =>
    logM (mkLog "ERROR" "" m m none) (setErrorM (some m) (setUiStateM .error st2))

/-- The complete `start` use-case as observed through `runWithUi`. -/
def start (env : RunEnv) (st : AppState) : AppState :=
  runWithUi (startBody env) st

/-- The complete `resume` use-case (`handleDecision` sets `resuming`
before calling it; `resumeBody` sets it again, so the composite is the
same). -/
def resume (decision : String) (env : RunEnv) (st : AppState) : AppState :=
  runWithUi (resumeBody decision env) st

/-- `clearAll` (app.js 925-941), the explicit reset action. -/
def clearAll (st : AppState) : AppState :=
  { st with
    uiState := .idle
    threadId := none
    storedThreadId := none
    errorBanner := none
    approvalVisible := false
    reportText := none
    workLabel := "-"
    logs := [] }

/-- `initAsync` (app.js 943-976): boot, then try to rehydrate the
persisted thread id with one read-only fetch.  `fetchRes` is consulted
only when a stored id exists. -/
def initBoot (stored : Option String) : AppState :=
  logM (mkLog "UI" "" "起動しました。" "起動しました。" none) (bootState stored)

def initAsync (stored : Option String) (fetchRes : Except String JVal) : AppState :=
  match stored with
  | none => initBoot stored
  | some tid =>
    match fetchRes with
    | .error m =>
      logM (mkLog "WARN" "" "保存済みthreadの確認に失敗→破棄"
          ("保存済みthreadの確認に失敗したため破棄しました: " ++ m) none)
        { (initBoot stored) with storedThreadId := none }
    | .ok t =>
      match extractInterruptPayload t with
      | some p =>
        { (logM (mkLog "UI" "" ("復元: 承認待ち thread_id=" ++ tid)
            ("復元: 承認待ち thread_id=" ++ tid) none) (stepWorked t (initBoot stored))) with
          threadId := some tid
          uiState := .waiting_approval
          approvalVisible := true
          question := dispQuestion p
          preview := dispPreview p }
      | none =>
        logM (mkLog "UI" "" "前回threadは承認待ちではないため破棄しました"
            ("前回threadは承認待ちではないため破棄しました: thread_id=" ++ tid) none)
          { (stepWorked t (initBoot stored)) with storedThreadId := none }

/-
Supersession model for the stream transport (app.js 466-539 together
with `runWithUi`).  A session couples the app state with the
`currentController` reference; actions are the atomic effects the event
loop can interleave once several `runStream` invocations coexist.  The
source calls `onEvent` (hence `handleSseEvent`) for every parsed frame
with no controller-identity check, and `runWithUi`'s catch handler runs
for a rejected (e.g. aborted) superseded task unconditionally; the only
identity-guarded effect in the source is the `finally` block resetting
`currentController` (app.js 528-530).
-/

structure SessionSt where
  app : AppState
  currentController : Option Nat

inductive RunAct where
  /-- a new `start` reaches `runStream`: the previous controller is
  aborted (fire-and-forget) and replaced (app.js 466-472), after the
  start-side preamble already ran (app.js 734-745). -/
  | beginRun (c : Nat) (tid : String)
  /-- the read loop of the task owning controller `c` parses one frame
  and calls `onEvent` (app.js 517-525) — the source has no
  controller-identity check on this path. -/
  | deliverFrame (c : Nat) (f : SseFrame)
  /-- the `finally` cleanup of the task owning `c` (app.js 528-530). -/
  | streamCleanup (c : Nat)
  /-- the task owning `c` fails (for a superseded task: the abort
  rejection) and its `runWithUi` catch handler runs (app.js 847-853). -/
  | failRun (c : Nat) (msg : String)

def stepAct (s : SessionSt) : RunAct → SessionSt
  | .beginRun c tid =>
    { app :=
        logM (mkLog "START" "" "開始" ("開始 / thread_id=" ++ tid) none)
          (setUiStateM .starting (setWorkM "-"
            { (resetViewForRun s.app) with threadId := some tid, storedThreadId := some tid }))
      currentController := some c }
  | .deliverFrame _ f => { s with app := handleSseEvent f s.app }
  | .streamCleanup c =>
    { s with currentController :=
        if s.currentController = some c then none else s.currentController }
  | .failRun _ m =>
    let a := logM (mkLog "ERROR" "" m m none) (setErrorM (some m) (setUiStateM .error s.app))
    { s with app := a }

def runTrace (acts : List RunAct) (s : SessionSt) : SessionSt :=
  acts.foldl stepAct s

/-
The four documented interrupt-payload locations (app.js 389-394) and the
documented wrapping variants, for stating location invariance.
-/

inductive InterruptLoc where
  | rootInterrupt | valuesInterrupt | rootInterrupts | valuesInterrupts
deriving DecidableEq

/-- A parsed object carrying candidate `c` at exactly one of the four
locations probed by `extractInterruptPayload`. -/
def placeCandidate (loc : InterruptLoc) (c : JVal) : JVal :=
  match loc with
  | .rootInterrupt => .jobj [("__interrupt__", c)]
  | .valuesInterrupt => .jobj [("values", .jobj [("__interrupt__", c)])]
  | .rootInterrupts => .jobj [("interrupts", c)]
  | .valuesInterrupts => .jobj [("values", .jobj [("interrupts", c)])]

/-- The wrapping variants tolerated by the candidate loop: optionally one
level under a `value` key, optionally as the sole element of a list. -/
def wrapPayload (listed vwrapped : Bool) (p : JVal) : JVal :=
  let inner := if vwrapped then JVal.jobj [("value", p)] else p
  if listed then .jarr [inner] else inner

/-- The data line lines of a frame as the spec words them: among the
CRLF-normalised lines of the frame, those carrying the `data:` prefix
contribute their trimmed payload, in order.  (Stated from the spec's
wording, to be compared with the source-derived `parseSseFrame`.) -/
def specDataLines (lines : List (List Char)) : List (List Char) :=
  (lines.filter (fun l => decide (l.take 5 = "data:".data))).map (fun l => jsTrimL (l.drop 5))

/-
Theorems.  Shared helper lemmas come first, then per-claim theorems
with their witnesses and counterexamples.
-/

theorem exists_of_findSome_eq {α β : Type} (f : α → Option β) :
    ∀ (l : List α) (b : β), l.findSome? f = some b → ∃ a ∈ l, f a = some b := by
  intro l
  induction l with
  | nil => intro b h; simp [List.findSome?] at h
  | cons a as ih =>
    intro b h
    rw [List.findSome?_cons] at h
    rcases hfa : f a with _ | v
    · rw [hfa] at h
      simp only [] at h
      rcases ih b h with ⟨x, hx, hfx⟩
      exact ⟨x, List.mem_cons_of_mem _ hx, hfx⟩
    · rw [hfa] at h
      simp only [] at h
      exact ⟨a, List.mem_cons_self a as, by rw [hfa, h]⟩

theorem addLogEntry_length_le (e : LogEntry) (l : List LogEntry) :
    (addLogEntry e l).length ≤ MAX_LOG_ITEMS := by
  unfold addLogEntry
  split
  · rw [List.length_take]
    exact min_le_left _ _
  · next hgt => simpa using Nat.le_of_not_lt hgt

/-- C7: every sequence of appends keeps the journal at or below the
capacity of `MAX_LOG_ITEMS = 80` entries; each append puts the new entry
at the front (newest-first iteration), and an append is exactly
`take 80 (new :: old)`, so when capacity would be exceeded the entries
at the back — the oldest — are the ones evicted. -/
theorem addLogEntry_bounded_newest_first (es : List LogEntry) (e : LogEntry)
    (l : List LogEntry) (h : l.length ≤ MAX_LOG_ITEMS) :
    (es.foldl (fun acc x => addLogEntry x acc) l).length ≤ MAX_LOG_ITEMS ∧
    (addLogEntry e l).head? = some e ∧
    addLogEntry e l = (e :: l).take MAX_LOG_ITEMS := by
  refine ⟨?_, ?_, ?_⟩
  · induction es generalizing l with
    | nil => simpa using h
    | cons x xs ih => exact ih (addLogEntry x l) (addLogEntry_length_le x l)
  · unfold addLogEntry
    split
    · rw [show MAX_LOG_ITEMS = 79 + 1 from rfl, List.take_succ_cons]
      rfl
    · rfl
  · unfold addLogEntry
    split
    · rfl
    · next hgt =>
      exact (List.take_of_length_le (by simpa using Nat.le_of_not_lt hgt)).symm

theorem addLogEntry_bounded_newest_first_witness :
    (([mkLog "UI" "" "a" "a" none]).foldl (fun acc x => addLogEntry x acc) []).length
        ≤ MAX_LOG_ITEMS ∧
    (addLogEntry (mkLog "UI" "" "a" "a" none) []).head? = some (mkLog "UI" "" "a" "a" none) ∧
    addLogEntry (mkLog "UI" "" "a" "a" none) []
        = ((mkLog "UI" "" "a" "a" none) :: []).take MAX_LOG_ITEMS :=
  addLogEntry_bounded_newest_first [mkLog "UI" "" "a" "a" none] (mkLog "UI" "" "a" "a" none) []
    (by decide)

theorem take1_of_take5_data (l : List Char) (h : l.take 5 = "data:".data) :
    l.take 1 = ['d'] := by
  have h2 := List.take_take 1 5 l
  rw [h] at h2
  simpa using h2.symm

theorem take5_of_take6_event (l : List Char) (h : l.take 6 = "event:".data) :
    l.take 5 = "event:".data.take 5 := by
  have h2 := List.take_take 5 6 l
  rw [h] at h2
  simpa using h2.symm

theorem parseSseLine_ds (acc : SseAcc) (l : List Char) :
    (parseSseLine acc l).ds
      = acc.ds ++ (if l.take 5 = "data:".data then [jsTrimL (l.drop 5)] else []) := by
  by_cases hd : l.take 5 = "data:".data
  · rw [if_pos hd]
    have hne : ¬ l = [] := by
      intro h0
      rw [h0] at hd
      exact absurd hd (by decide)
    have h1 : ¬ l.take 1 = [':'] := by
      rw [take1_of_take5_data l hd]
      decide
    have h6 : ¬ l.take 6 = "event:".data := by
      intro h6
      have h7 := take5_of_take6_event l h6
      rw [hd] at h7
      exact absurd h7 (by decide)
    unfold parseSseLine
    rw [if_neg hne, if_neg h1, if_neg h6, if_pos hd]
  · rw [if_neg hd]
    unfold parseSseLine
    split_ifs <;> simp_all

theorem foldl_parseSseLine_ds (lines : List (List Char)) (acc : SseAcc) :
    (lines.foldl parseSseLine acc).ds = acc.ds ++ specDataLines lines := by
  induction lines generalizing acc with
  | nil => simp [specDataLines]
  | cons l ls ih =>
    rw [List.foldl_cons, ih]
    unfold specDataLines
    rw [List.filter_cons]
    by_cases hd : l.take 5 = "data:".data
    · rw [parseSseLine_ds, if_pos hd, if_pos (by simpa using hd)]
      simp [specDataLines]
    · rw [parseSseLine_ds, if_neg hd, if_neg (by simpa using hd)]
      simp [specDataLines]

/-- C6: `parseSseFrame` is total (never throws): for every frame text,
its `data` field is computed from the newline-join, in order, of the
(trimmed) `data:` line payloads; a non-empty join is JSON-parsed, and a
parse failure silently keeps the raw joined string, so a malformed data
field never aborts the frame or the stream. -/
theorem parseSseFrame_data_eq (t : List Char) :
    (parseSseFrame t).data =
      (let raw := List.intercalate ['\n'] (specDataLines (splitOnNl (replCRLF t)))
       if raw = [] then JVal.jstr ""
       else
         match jsonParse raw with
         | some v => v
         | none => JVal.jstr (String.mk raw)) := by
  show sseDataVal _ = _
  rw [foldl_parseSseLine_ds]
  rfl

/-- C5 (amended): for a parsed object none of whose four
interrupt-location candidates validates, `extractInterruptPayload`
synthesizes the default payload exactly when the JS string conversion of
the top-level `status` field equals `"interrupted"` (for a string-valued
or absent `status` this coincides with plain equality), and returns
`null` otherwise.  The synthesized payload's `kind` is the approval
marker, its `question` is the fixed string, and its `options` are
exactly the canonical three decision tokens `"y"`, `"retry"`, `"n"`
(as a set — the stored order is `["y", "n", "retry"]`). -/
theorem extractInterrupt_status_fallback (fs : List (String × JVal))
    (hnc : (candidateList (JVal.jobj fs)).findSome? tryCandidate = none) :
    extractInterruptPayload (JVal.jobj fs)
        = (if statusStr (JVal.jobj fs) = "interrupted" then some defaultApproval else none) ∧
    getField defaultApproval "kind" = some (JVal.jstr "approval_request") ∧
    getField defaultApproval "question" = some (JVal.jstr "承認しますか？") ∧
    getField defaultApproval "options"
        = some (JVal.jarr [JVal.jstr "y", JVal.jstr "n", JVal.jstr "retry"]) ∧
    (["y", "n", "retry"] : List String).Perm ["y", "retry", "n"] := by
  refine ⟨?_, rfl, rfl, rfl, by decide⟩
  have h1 : extractInterruptPayload (JVal.jobj fs)
      = (if (statusStr (JVal.jobj fs) == "interrupted") = true then some defaultApproval
         else none) := by
    unfold extractInterruptPayload
    rw [hnc, if_pos (show truthy (JVal.jobj fs) = true from rfl)]
  rw [h1]
  by_cases hs : statusStr (JVal.jobj fs) = "interrupted"
  · rw [if_pos hs, if_pos (by simp [hs])]
  · rw [if_neg hs, if_neg (by simp [hs])]

theorem extractInterrupt_status_fallback_witness :
    (extractInterruptPayload (JVal.jobj [("status", JVal.jstr "interrupted")])
        = (if statusStr (JVal.jobj [("status", JVal.jstr "interrupted")]) = "interrupted"
           then some defaultApproval else none)) ∧
    getField defaultApproval "kind" = some (JVal.jstr "approval_request") ∧
    getField defaultApproval "question" = some (JVal.jstr "承認しますか？") ∧
    getField defaultApproval "options"
        = some (JVal.jarr [JVal.jstr "y", JVal.jstr "n", JVal.jstr "retry"]) ∧
    (["y", "n", "retry"] : List String).Perm ["y", "retry", "n"] :=
  extractInterrupt_status_fallback [("status", JVal.jstr "interrupted")] rfl

/-- C5 counterexample: the parsed object with `status` equal to the
one-element list `["interrupted"]` has no valid candidate and its
top-level `status` field does not equal the string `"interrupted"`, so
the claim as stated requires a `null` result; the code applies the JS
string conversion (`String(["interrupted"])` is `"interrupted"`) and
synthesizes the default payload instead. -/
theorem extractInterrupt_status_counterexample :
    extractInterruptPayload (JVal.jobj [("status", JVal.jarr [JVal.jstr "interrupted"])])
        = some defaultApproval ∧
    (candidateList (JVal.jobj [("status", JVal.jarr [JVal.jstr "interrupted"])])).findSome?
        tryCandidate = none ∧
    getField (JVal.jobj [("status", JVal.jarr [JVal.jstr "interrupted"])]) "status"
        ≠ some (JVal.jstr "interrupted") := by
  have hstat : statusStr (JVal.jobj [("status", JVal.jarr [JVal.jstr "interrupted"])])
      = "interrupted" := by
    simp only [statusStr, getField, List.find?]
    norm_num
    simp only [jsToString, jsArrElems, jsElemStr]
    rfl
  refine ⟨?_, rfl, ?_⟩
  · unfold extractInterruptPayload
    rw [if_pos (show truthy (JVal.jobj [("status", JVal.jarr [JVal.jstr "interrupted"])])
        = true from rfl)]
    rw [show (candidateList
        (JVal.jobj [("status", JVal.jarr [JVal.jstr "interrupted"])])).findSome? tryCandidate
        = none from rfl]
    rw [hstat]
    rfl
  · intro h
    simp [getField, List.find?] at h

theorem truthy_of_valid (P : JVal) (h : validPayload P = true) : truthy P = true := by
  cases P <;> simp_all [validPayload, getField, truthyO, truthy]

theorem valid_is_jobj (P : JVal) (h : validPayload P = true) : ∃ gs, P = JVal.jobj gs := by
  cases P with
  | jobj gs => exact ⟨gs, rfl⟩
  | _ => simp_all [validPayload, getField, truthyO]

theorem tryCandidate_wrap (P : JVal) (listed vwrapped : Bool)
    (hvalid : validPayload P = true)
    (hval : getField P "value" = none ∨ getField P "value" = some JVal.jnull) :
    tryCandidate (wrapPayload listed vwrapped P) = some P := by
  obtain ⟨gs, rfl⟩ := valid_is_jobj P hvalid
  have hunwrap : unwrapValue (JVal.jobj gs) = JVal.jobj gs := by
    unfold unwrapValue
    rcases hval with h | h <;> rw [h]
  have hunwrap2 : unwrapValue (JVal.jobj [("value", JVal.jobj gs)]) = JVal.jobj gs := rfl
  have hbare : tryCandidate (JVal.jobj gs) = some (JVal.jobj gs) := by
    unfold tryCandidate
    simp only [firstOf]
    rw [hunwrap, if_pos (show truthy (JVal.jobj gs) = true from rfl),
      if_pos (show truthy (JVal.jobj gs) = true from rfl), if_pos hvalid]
  have hwrapped : tryCandidate (JVal.jobj [("value", JVal.jobj gs)]) = some (JVal.jobj gs) := by
    unfold tryCandidate
    simp only [firstOf]
    rw [hunwrap2, if_pos (show truthy (JVal.jobj [("value", JVal.jobj gs)]) = true from rfl),
      if_pos (show truthy (JVal.jobj gs) = true from rfl), if_pos hvalid]
  cases listed <;> cases vwrapped
  · exact hbare
  · exact hwrapped
  · show tryCandidate (JVal.jarr [JVal.jobj gs]) = some (JVal.jobj gs)
    unfold tryCandidate
    simp only [firstOf, List.head?]
    rw [hunwrap, if_pos (show truthy (JVal.jobj gs) = true from rfl),
      if_pos (show truthy (JVal.jobj gs) = true from rfl), if_pos hvalid]
  · show tryCandidate (JVal.jarr [JVal.jobj [("value", JVal.jobj gs)]]) = some (JVal.jobj gs)
    unfold tryCandidate
    simp only [firstOf, List.head?]
    rw [hunwrap2, if_pos (show truthy (JVal.jobj [("value", JVal.jobj gs)]) = true from rfl),
      if_pos (show truthy (JVal.jobj gs) = true from rfl), if_pos hvalid]

theorem candidateList_place (loc : InterruptLoc) (c : JVal) (hc : truthy c = true) :
    candidateList (placeCandidate loc c) = [c] := by
  cases loc <;> simp [candidateList, placeCandidate, getField, List.find?, hc]

/-- C2 (amended): a payload `P` that the code's validity test accepts
(its `kind` is the approval marker, or its `question` is truthy, or its
`analysis_preview` is truthy) and that does not itself carry a
non-`null` `value` key is returned identically from every one of the
four documented locations, bare or as the first element of a list, and
with or without one level of `value`-wrapping. -/
theorem extractInterrupt_location_invariance (P : JVal) (loc : InterruptLoc)
    (listed vwrapped : Bool) (hvalid : validPayload P = true)
    (hval : getField P "value" = none ∨ getField P "value" = some JVal.jnull) :
    extractInterruptPayload (placeCandidate loc (wrapPayload listed vwrapped P)) = some P := by
  have hc : truthy (wrapPayload listed vwrapped P) = true := by
    cases listed <;> cases vwrapped <;>
      first
        | rfl
        | exact truthy_of_valid P hvalid
  unfold extractInterruptPayload
  rw [if_pos (by cases loc <;> rfl)]
  rw [candidateList_place loc _ hc, List.findSome?_cons,
    tryCandidate_wrap P listed vwrapped hvalid hval]

theorem extractInterrupt_location_invariance_witness :
    extractInterruptPayload (placeCandidate .valuesInterrupts
        (wrapPayload true true (JVal.jobj [("kind", JVal.jstr "approval_request")])))
      = some (JVal.jobj [("kind", JVal.jstr "approval_request")]) :=
  extractInterrupt_location_invariance (JVal.jobj [("kind", JVal.jstr "approval_request")])
    .valuesInterrupts true true rfl (Or.inl rfl)

/-- C2 counterexample: the payload
`{kind: "approval_request", value: "x"}` is valid in the claim's own
sense (an object whose `kind` equals the approval marker), yet placed
bare at the root `__interrupt__` location the code unwraps its `value`
key (`first?.value ?? first`), tests the string `"x"` instead, and
returns `null` rather than the payload. -/
theorem extractInterrupt_location_counterexample :
    validPayload (JVal.jobj [("kind", JVal.jstr "approval_request"), ("value", JVal.jstr "x")])
        = true ∧
    extractInterruptPayload (placeCandidate .rootInterrupt
        (wrapPayload false false
          (JVal.jobj [("kind", JVal.jstr "approval_request"), ("value", JVal.jstr "x")])))
      = none :=
  ⟨rfl, rfl⟩

theorem tryCandidate_truthy (c p : JVal) (h : tryCandidate c = some p) : truthy p = true := by
  unfold tryCandidate at h
  split at h
  · exact absurd h (by simp)
  · split_ifs at h with h1 h2 h3
    injection h with h4
    subst h4
    exact h2

theorem extract_truthy (o p : JVal) (h : extractInterruptPayload o = some p) :
    truthy p = true := by
  unfold extractInterruptPayload at h
  rcases hfs : (candidateList o).findSome? tryCandidate with _ | q
  · rw [hfs] at h
    by_cases ht : truthy o = true
    · rw [if_pos ht] at h
      simp only [] at h
      split_ifs at h
      injection h with h2
      subst h2
      rfl
    · rw [if_neg ht] at h
      exact absurd h (by simp)
  · rw [hfs] at h
    by_cases ht : truthy o = true
    · rw [if_pos ht] at h
      simp only [] at h
      injection h with h2
      subst h2
      obtain ⟨c, _, hc⟩ := exists_of_findSome_eq tryCandidate (candidateList o) q hfs
      exact tryCandidate_truthy c q hc
    · rw [if_neg ht] at h
      exact absurd h (by simp)

@[simp] theorem setWorkM_uiState (s : String) (st : AppState) :
    (setWorkM s st).uiState = st.uiState := rfl
@[simp] theorem setWorkM_threadId (s : String) (st : AppState) :
    (setWorkM s st).threadId = st.threadId := rfl
@[simp] theorem setWorkM_storedThreadId (s : String) (st : AppState) :
    (setWorkM s st).storedThreadId = st.storedThreadId := rfl
@[simp] theorem setWorkM_errorBanner (s : String) (st : AppState) :
    (setWorkM s st).errorBanner = st.errorBanner := rfl
@[simp] theorem setWorkM_reportText (s : String) (st : AppState) :
    (setWorkM s st).reportText = st.reportText := rfl
@[simp] theorem setWorkM_question (s : String) (st : AppState) :
    (setWorkM s st).question = st.question := rfl
@[simp] theorem setWorkM_preview (s : String) (st : AppState) :
    (setWorkM s st).preview = st.preview := rfl
@[simp] theorem setWorkM_approvalVisible (s : String) (st : AppState) :
    (setWorkM s st).approvalVisible = st.approvalVisible := rfl

@[simp] theorem logM_uiState (e : LogEntry) (st : AppState) :
    (logM e st).uiState = st.uiState := rfl
@[simp] theorem logM_threadId (e : LogEntry) (st : AppState) :
    (logM e st).threadId = st.threadId := rfl
@[simp] theorem logM_storedThreadId (e : LogEntry) (st : AppState) :
    (logM e st).storedThreadId = st.storedThreadId := rfl
@[simp] theorem logM_errorBanner (e : LogEntry) (st : AppState) :
    (logM e st).errorBanner = st.errorBanner := rfl
@[simp] theorem logM_reportText (e : LogEntry) (st : AppState) :
    (logM e st).reportText = st.reportText := rfl
@[simp] theorem logM_question (e : LogEntry) (st : AppState) :
    (logM e st).question = st.question := rfl
@[simp] theorem logM_preview (e : LogEntry) (st : AppState) :
    (logM e st).preview = st.preview := rfl
@[simp] theorem logM_approvalVisible (e : LogEntry) (st : AppState) :
    (logM e st).approvalVisible = st.approvalVisible := rfl

@[simp] theorem setErrorM_uiState (m : Option String) (st : AppState) :
    (setErrorM m st).uiState = st.uiState := rfl
@[simp] theorem setErrorM_threadId (m : Option String) (st : AppState) :
    (setErrorM m st).threadId = st.threadId := rfl
@[simp] theorem setErrorM_storedThreadId (m : Option String) (st : AppState) :
    (setErrorM m st).storedThreadId = st.storedThreadId := rfl
@[simp] theorem setErrorM_question (m : Option String) (st : AppState) :
    (setErrorM m st).question = st.question := rfl
@[simp] theorem setErrorM_preview (m : Option String) (st : AppState) :
    (setErrorM m st).preview = st.preview := rfl
@[simp] theorem setErrorM_reportText (m : Option String) (st : AppState) :
    (setErrorM m st).reportText = st.reportText := rfl
@[simp] theorem setErrorM_errorBanner (m : Option String) (st : AppState) :
    (setErrorM m st).errorBanner = m := rfl

@[simp] theorem setUiStateM_uiState (s : UiState) (st : AppState) :
    (setUiStateM s st).uiState = s := rfl
@[simp] theorem setUiStateM_threadId (s : UiState) (st : AppState) :
    (setUiStateM s st).threadId = st.threadId := rfl
@[simp] theorem setUiStateM_storedThreadId (s : UiState) (st : AppState) :
    (setUiStateM s st).storedThreadId = st.storedThreadId := rfl
@[simp] theorem setUiStateM_errorBanner (s : UiState) (st : AppState) :
    (setUiStateM s st).errorBanner = st.errorBanner := rfl
@[simp] theorem setUiStateM_question (s : UiState) (st : AppState) :
    (setUiStateM s st).question = st.question := rfl
@[simp] theorem setUiStateM_preview (s : UiState) (st : AppState) :
    (setUiStateM s st).preview = st.preview := rfl
@[simp] theorem setUiStateM_reportText (s : UiState) (st : AppState) :
    (setUiStateM s st).reportText = st.reportText := rfl

@[simp] theorem resetViewForRun_uiState (st : AppState) :
    (resetViewForRun st).uiState = st.uiState := rfl
@[simp] theorem resetViewForRun_threadId (st : AppState) :
    (resetViewForRun st).threadId = st.threadId := rfl
@[simp] theorem resetViewForRun_storedThreadId (st : AppState) :
    (resetViewForRun st).storedThreadId = st.storedThreadId := rfl
@[simp] theorem resetViewForRun_question (st : AppState) :
    (resetViewForRun st).question = st.question := rfl

@[simp] theorem workStepped_uiState (raw : JVal) (st : AppState) :
    (workStepped raw st).uiState = st.uiState := by
  unfold workStepped
  split_ifs <;> rfl
@[simp] theorem workStepped_threadId (raw : JVal) (st : AppState) :
    (workStepped raw st).threadId = st.threadId := by
  unfold workStepped
  split_ifs <;> rfl
@[simp] theorem workStepped_storedThreadId (raw : JVal) (st : AppState) :
    (workStepped raw st).storedThreadId = st.storedThreadId := by
  unfold workStepped
  split_ifs <;> rfl
@[simp] theorem workStepped_errorBanner (raw : JVal) (st : AppState) :
    (workStepped raw st).errorBanner = st.errorBanner := by
  unfold workStepped
  split_ifs <;> rfl
@[simp] theorem workStepped_reportText (raw : JVal) (st : AppState) :
    (workStepped raw st).reportText = st.reportText := by
  unfold workStepped
  split_ifs <;> rfl
@[simp] theorem workStepped_question (raw : JVal) (st : AppState) :
    (workStepped raw st).question = st.question := by
  unfold workStepped
  split_ifs <;> rfl
@[simp] theorem workStepped_preview (raw : JVal) (st : AppState) :
    (workStepped raw st).preview = st.preview := by
  unfold workStepped
  split_ifs <;> rfl

theorem showApprovalIfNeeded_waiting (p : JVal) (st : AppState) (hp : truthy p = true) :
    (showApprovalIfNeeded p st).uiState = .waiting_approval := by
  unfold showApprovalIfNeeded
  rw [if_pos hp]
  split_ifs with h
  · exact h
  · rfl

theorem showApprovalIfNeeded_preserves (p : JVal) (st : AppState) :
    (showApprovalIfNeeded p st).threadId = st.threadId ∧
    (showApprovalIfNeeded p st).storedThreadId = st.storedThreadId ∧
    (showApprovalIfNeeded p st).errorBanner = st.errorBanner ∧
    (showApprovalIfNeeded p st).reportText = st.reportText := by
  unfold showApprovalIfNeeded
  split_ifs <;> simp [logM]

theorem handleSseEvent_preserves (f : SseFrame) (st : AppState) :
    (handleSseEvent f st).threadId = st.threadId ∧
    (handleSseEvent f st).storedThreadId = st.storedThreadId ∧
    (handleSseEvent f st).errorBanner = st.errorBanner ∧
    (handleSseEvent f st).reportText = st.reportText := by
  unfold handleSseEvent
  split
  · exact showApprovalIfNeeded_preserves _ _
  · repeat' split
    all_goals simp

theorem handleSseEvent_uiState (f : SseFrame) (st : AppState) :
    (handleSseEvent f st).uiState = st.uiState ∨
    (handleSseEvent f st).uiState = .waiting_approval := by
  unfold handleSseEvent
  split
  · unfold showApprovalIfNeeded
    split_ifs <;> simp [logM]
  · repeat' split
    all_goals simp

theorem foldl_handleSseEvent_preserves (fl : List SseFrame) (st : AppState) :
    ((fl.foldl (fun s ev => handleSseEvent ev s) st).threadId = st.threadId ∧
     (fl.foldl (fun s ev => handleSseEvent ev s) st).storedThreadId = st.storedThreadId ∧
     (fl.foldl (fun s ev => handleSseEvent ev s) st).errorBanner = st.errorBanner ∧
     (fl.foldl (fun s ev => handleSseEvent ev s) st).reportText = st.reportText) := by
  induction fl generalizing st with
  | nil => exact ⟨rfl, rfl, rfl, rfl⟩
  | cons f fl2 ih =>
    have h1 := handleSseEvent_preserves f st
    have h2 := ih (handleSseEvent f st)
    rw [List.foldl_cons]
    exact ⟨h2.1.trans h1.1, h2.2.1.trans h1.2.1, h2.2.2.1.trans h1.2.2.1,
      h2.2.2.2.trans h1.2.2.2⟩

@[simp] theorem stepWorked_uiState (t : JVal) (st : AppState) :
    (stepWorked t st).uiState = st.uiState := by
  unfold stepWorked
  split_ifs <;> rfl
@[simp] theorem stepWorked_threadId (t : JVal) (st : AppState) :
    (stepWorked t st).threadId = st.threadId := by
  unfold stepWorked
  split_ifs <;> rfl
@[simp] theorem stepWorked_storedThreadId (t : JVal) (st : AppState) :
    (stepWorked t st).storedThreadId = st.storedThreadId := by
  unfold stepWorked
  split_ifs <;> rfl
@[simp] theorem stepWorked_errorBanner (t : JVal) (st : AppState) :
    (stepWorked t st).errorBanner = st.errorBanner := by
  unfold stepWorked
  split_ifs <;> rfl
@[simp] theorem stepWorked_reportText (t : JVal) (st : AppState) :
    (stepWorked t st).reportText = st.reportText := by
  unfold stepWorked
  split_ifs <;> rfl
@[simp] theorem stepWorked_question (t : JVal) (st : AppState) :
    (stepWorked t st).question = st.question := by
  unfold stepWorked
  split_ifs <;> rfl
@[simp] theorem stepWorked_preview (t : JVal) (st : AppState) :
    (stepWorked t st).preview = st.preview := by
  unfold stepWorked
  split_ifs <;> rfl

theorem stepWorked_fields (t : JVal) (st : AppState) :
    (stepWorked t st).uiState = st.uiState ∧
    (stepWorked t st).threadId = st.threadId ∧
    (stepWorked t st).storedThreadId = st.storedThreadId ∧
    (stepWorked t st).errorBanner = st.errorBanner ∧
    (stepWorked t st).reportText = st.reportText := by
  unfold stepWorked setWorkM
  split_ifs <;> simp

theorem finishRun_ok_uiState (msg : String) (fr : Except String JVal) (st st2 : AppState)
    (h : finishRun msg fr st = .ok st2) :
    st2.uiState = .waiting_approval ∨ st2.uiState = .done := by
  unfold finishRun at h
  rcases fr with m | t
  · exact absurd h (by simp)
  · simp only [] at h
    rcases hx : extractInterruptPayload t with _ | p
    · rw [hx] at h
      simp only [] at h
      split_ifs at h <;>
        (injection h with h2; subst h2; right; simp [logM])
    · rw [hx] at h
      simp only [] at h
      injection h with h2
      subst h2
      left
      exact showApprovalIfNeeded_waiting p _ (extract_truthy t p hx)

/-- C4: a run launched through `runWithUi` — `start` from any state,
`resume` from any state — always terminates in exactly one of
`waiting_approval`, `done`, or `error`; it never ends in `idle` nor
still in `starting`/`resuming`, and the `idle` state is produced by the
explicit reset action `clearAll`. -/
theorem run_resolves_to_terminal (env envr : RunEnv) (d : String) (st : AppState) :
    ((start env st).uiState = .waiting_approval ∨ (start env st).uiState = .done ∨
      (start env st).uiState = .error) ∧
    ((resume d envr st).uiState = .waiting_approval ∨ (resume d envr st).uiState = .done ∨
      (resume d envr st).uiState = .error) ∧
    (start env st).uiState ≠ .idle ∧
    (resume d envr st).uiState ≠ .idle ∧
    (clearAll st).uiState = .idle := by
  have hstart : (start env st).uiState = .waiting_approval ∨ (start env st).uiState = .done ∨
      (start env st).uiState = .error := by
    unfold start runWithUi
    rcases hb : startBody env (setErrorM none st) with ⟨m, st2⟩ | st2
    · right; right
      rfl
    · unfold startBody at hb
      rcases he : ensureThreadIdFromServer true env.createResp
          (resetViewForRun (setErrorM none st)) with m2 | ⟨tid, st3⟩
      · rw [he] at hb
        exact absurd hb (by simp)
      · rw [he] at hb
        simp only [] at hb
        rcases hs : streamPhase env
            (logM (mkLog "START" "" "開始" ("開始 / thread_id=" ++ tid) none)
              (setUiStateM .starting (setWorkM "-" st3))) with e2 | st5
        · rw [hs] at hb
          exact absurd hb (by simp)
        · rw [hs] at hb
          simp only [] at hb
          rcases finishRun_ok_uiState _ _ _ _ hb with h | h
          · exact Or.inl h
          · exact Or.inr (Or.inl h)
  have hresume : (resume d envr st).uiState = .waiting_approval ∨
      (resume d envr st).uiState = .done ∨ (resume d envr st).uiState = .error := by
    unfold resume runWithUi
    rcases hb : resumeBody d envr (setErrorM none st) with ⟨m, st2⟩ | st2
    · right; right
      rfl
    · unfold resumeBody at hb
      rcases he : ensureThreadIdFromServer false envr.createResp
          (resetViewForRun (setErrorM none st)) with m2 | ⟨tid, st3⟩
      · rw [he] at hb
        exact absurd hb (by simp)
      · rw [he] at hb
        simp only [] at hb
        rcases hs : streamPhase envr
            (logM (mkLog "RESUME" "" ("入力: " ++ d) ("入力: " ++ d ++ " / thread_id=" ++ tid) none)
              (setUiStateM .resuming st3)) with e2 | st5
        · rw [hs] at hb
          exact absurd hb (by simp)
        · rw [hs] at hb
          simp only [] at hb
          rcases finishRun_ok_uiState _ _ _ _ hb with h | h
          · exact Or.inl h
          · exact Or.inr (Or.inl h)
  refine ⟨hstart, hresume, ?_, ?_, rfl⟩
  · rcases hstart with h | h | h <;> rw [h] <;> simp
  · rcases hresume with h | h | h <;> rw [h] <;> simp

theorem streamPhase_ok_preserves (env : RunEnv) (st st2 : AppState)
    (h : streamPhase env st = .ok st2) :
    st2.threadId = st.threadId ∧ st2.storedThreadId = st.storedThreadId := by
  unfold streamPhase at h
  have hp := foldl_handleSseEvent_preserves env.streamFrames st
  rcases he : env.streamErr with _ | m
  · rw [he] at h
    simp only [] at h
    split_ifs at h <;>
      (injection h with h2; subst h2; simp [hp.1, hp.2.1])
  · rw [he] at h
    exact absurd h (by simp)

theorem streamPhase_error_preserves (env : RunEnv) (st st2 : AppState) (m : String)
    (h : streamPhase env st = .error (m, st2)) :
    st2.threadId = st.threadId ∧ st2.storedThreadId = st.storedThreadId := by
  unfold streamPhase at h
  have hp := foldl_handleSseEvent_preserves env.streamFrames st
  rcases he : env.streamErr with _ | m2
  · rw [he] at h
    simp only [] at h
    split_ifs at h <;> exact absurd h (by simp)
  · rw [he] at h
    simp only [] at h
    injection h with h2
    injection h2 with h3 h4
    subst h4
    exact ⟨hp.1, hp.2.1⟩

theorem finishRun_ok_preserves (msg : String) (fr : Except String JVal) (st st2 : AppState)
    (h : finishRun msg fr st = .ok st2) :
    st2.threadId = st.threadId ∧ st2.storedThreadId = st.storedThreadId := by
  unfold finishRun at h
  rcases fr with m | t
  · exact absurd h (by simp)
  · simp only [] at h
    rcases hx : extractInterruptPayload t with _ | p
    · rw [hx] at h
      simp only [] at h
      split_ifs at h <;>
        (injection h with h2; subst h2;
         exact ⟨by simp [(stepWorked_fields t st).2.1], by simp [(stepWorked_fields t st).2.2.1]⟩)
    · rw [hx] at h
      simp only [] at h
      injection h with h2
      subst h2
      have hs := showApprovalIfNeeded_preserves p (stepWorked t st)
      exact ⟨hs.1.trans (stepWorked_fields t st).2.1,
        hs.2.1.trans (stepWorked_fields t st).2.2.1⟩

theorem finishRun_error_preserves (msg : String) (fr : Except String JVal)
    (st st2 : AppState) (m : String) (h : finishRun msg fr st = .error (m, st2)) :
    st2.threadId = st.threadId ∧ st2.storedThreadId = st.storedThreadId := by
  unfold finishRun at h
  rcases fr with m2 | t
  · simp only [] at h
    injection h with h2
    injection h2 with h3 h4
    subst h4
    exact ⟨rfl, rfl⟩
  · simp only [] at h
    rcases hx : extractInterruptPayload t with _ | p
    · rw [hx] at h
      simp only [] at h
      split_ifs at h <;> exact absurd h (by simp)
    · rw [hx] at h
      exact absurd h (by simp)

theorem start_thread_ids (env : RunEnv) (st : AppState) (id : String)
    (hok : createThread env.createResp = .ok id) :
    (start env st).threadId = some id ∧ (start env st).storedThreadId = some id := by
  unfold start runWithUi startBody
  have he : ensureThreadIdFromServer true env.createResp (resetViewForRun (setErrorM none st))
      = .ok (id, logM
          (mkLog "THREAD" "" ("作成: thread_id=" ++ id) ("作成: thread_id=" ++ id) none)
          { resetViewForRun (setErrorM none st) with
            threadId := some id
            storedThreadId := some id }) := by
    unfold ensureThreadIdFromServer
    rw [hok]
    rfl
  rw [he]
  simp only []
  rcases hs : streamPhase env
      (logM (mkLog "START" "" "開始" ("開始 / thread_id=" ++ id) none)
        (setUiStateM .starting (setWorkM "-"
          (logM (mkLog "THREAD" "" ("作成: thread_id=" ++ id) ("作成: thread_id=" ++ id) none)
            { resetViewForRun (setErrorM none st) with
              threadId := some id
              storedThreadId := some id })))) with ⟨m2, st4⟩ | st5
  · have hp := streamPhase_error_preserves _ _ _ _ hs
    simp only [] at hp
    exact ⟨by simp [hp.1], by simp [hp.2]⟩
  · simp only []
    rcases hf : finishRun noReportMsgStart env.fetchRes st5 with ⟨m3, st6⟩ | st7
    · have hp2 := finishRun_error_preserves _ _ _ _ _ hf
      have hp := streamPhase_ok_preserves _ _ _ hs
      simp only [] at hp
      exact ⟨by simp [hp2.1, hp.1], by simp [hp2.2, hp.2]⟩
    · have hp2 := finishRun_ok_preserves _ _ _ _ hf
      have hp := streamPhase_ok_preserves _ _ _ hs
      simp only [] at hp
      exact ⟨by simp [hp2.1, hp.1], by simp [hp2.2, hp.2]⟩

/-- C8: every start use-case creates a fresh thread through the create
RPC — when creation succeeds with id `id`, both the held and the
persisted thread id become exactly `id`, whatever they were before; a
failed creation (HTTP failure or missing `thread_id`) propagates out of
`ensureThreadIdFromServer` with the state untouched, so the stored id is
unchanged and the run ends in the error state. -/
theorem start_creates_fresh_thread (st stf : AppState) (env envf : RunEnv) (id m : String)
    (hok : createThread env.createResp = .ok id)
    (herr : createThread envf.createResp = .error m) :
    (start env st).threadId = some id ∧
    (start env st).storedThreadId = some id ∧
    ensureThreadIdFromServer true env.createResp st
      = .ok (id, logM
          (mkLog "THREAD" "" ("作成: thread_id=" ++ id) ("作成: thread_id=" ++ id) none)
          { st with threadId := some id, storedThreadId := some id }) ∧
    ensureThreadIdFromServer true envf.createResp stf = .error m ∧
    (start envf stf).threadId = stf.threadId ∧
    (start envf stf).storedThreadId = stf.storedThreadId ∧
    (start envf stf).uiState = .error := by
  have herr2 : ensureThreadIdFromServer true envf.createResp
      (resetViewForRun (setErrorM none stf)) = .error m := by
    unfold ensureThreadIdFromServer
    rw [herr]
    rfl
  refine ⟨(start_thread_ids env st id hok).1, (start_thread_ids env st id hok).2, ?_, ?_, ?_⟩
  · unfold ensureThreadIdFromServer
    rw [hok]
    rfl
  · unfold ensureThreadIdFromServer
    rw [herr]
    rfl
  · unfold start runWithUi startBody
    rw [herr2]
    exact ⟨rfl, rfl, rfl⟩

theorem start_creates_fresh_thread_witness :
    (start ⟨⟨true, some (JVal.jstr "t1")⟩, [], none, .ok (JVal.jobj [])⟩
        (bootState none)).threadId = some "t1" ∧
    (start ⟨⟨true, some (JVal.jstr "t1")⟩, [], none, .ok (JVal.jobj [])⟩
        (bootState none)).storedThreadId = some "t1" ∧
    ensureThreadIdFromServer true ⟨true, some (JVal.jstr "t1")⟩ (bootState none)
      = .ok ("t1", logM
          (mkLog "THREAD" "" ("作成: thread_id=" ++ "t1") ("作成: thread_id=" ++ "t1") none)
          { (bootState none) with threadId := some "t1", storedThreadId := some "t1" }) ∧
    ensureThreadIdFromServer true ⟨false, none⟩ (bootState (some "old"))
      = .error "thread create failed" ∧
    (start ⟨⟨false, none⟩, [], none, .ok (JVal.jobj [])⟩
        (bootState (some "old"))).threadId = (bootState (some "old")).threadId ∧
    (start ⟨⟨false, none⟩, [], none, .ok (JVal.jobj [])⟩
        (bootState (some "old"))).storedThreadId = (bootState (some "old")).storedThreadId ∧
    (start ⟨⟨false, none⟩, [], none, .ok (JVal.jobj [])⟩
        (bootState (some "old"))).uiState = .error :=
  start_creates_fresh_thread (bootState none) (bootState (some "old"))
    ⟨⟨true, some (JVal.jstr "t1")⟩, [], none, .ok (JVal.jobj [])⟩
    ⟨⟨false, none⟩, [], none, .ok (JVal.jobj [])⟩ "t1" "thread create failed"
    (by simp [createThread, truthy, jsToString]) (by simp [createThread])

/-- C9: rehydration on startup with a persisted thread id and one
read-only fetch.  When the fetched thread still carries a pending
interrupt, the client adopts the id, enters `waiting_approval`, keeps the
id persisted, shows no error banner, and displays exactly the question
and preview that `showApprovalIfNeeded` would display for the same
normalized payload during a live run.  When the fetched thread has no
interrupt — and equally when the fetch itself fails — the stored id is
discarded with no error state and no error banner (the client stays
`idle`). -/
theorem initAsync_rehydration (tid : String) (t t2 : JVal) (p : JVal) (m : String)
    (st' : AppState)
    (h1 : extractInterruptPayload t = some p)
    (h2 : extractInterruptPayload t2 = none)
    (hs : st'.uiState ≠ .waiting_approval) :
    ((initAsync (some tid) (.ok t)).uiState = .waiting_approval ∧
     (initAsync (some tid) (.ok t)).threadId = some tid ∧
     (initAsync (some tid) (.ok t)).storedThreadId = some tid ∧
     (initAsync (some tid) (.ok t)).errorBanner = none ∧
     (initAsync (some tid) (.ok t)).question = (showApprovalIfNeeded p st').question ∧
     (initAsync (some tid) (.ok t)).preview = (showApprovalIfNeeded p st').preview) ∧
    ((initAsync (some tid) (.ok t2)).storedThreadId = none ∧
     (initAsync (some tid) (.ok t2)).uiState = .idle ∧
     (initAsync (some tid) (.ok t2)).errorBanner = none) ∧
    ((initAsync (some tid) (.error m)).storedThreadId = none ∧
     (initAsync (some tid) (.error m)).uiState = .idle ∧
     (initAsync (some tid) (.error m)).errorBanner = none) := by
  have hp : truthy p = true := extract_truthy t p h1
  have hshow : (showApprovalIfNeeded p st').question = dispQuestion p ∧
      (showApprovalIfNeeded p st').preview = dispPreview p := by
    unfold showApprovalIfNeeded
    rw [if_pos hp, if_neg hs]
    exact ⟨rfl, rfl⟩
  refine ⟨?_, ?_, ?_⟩
  · unfold initAsync
    simp only []
    rw [h1]
    refine ⟨rfl, rfl, ?_, ?_, ?_, ?_⟩
    · simp [initBoot, bootState]
    · simp [initBoot, bootState]
    · rw [hshow.1]
    · rw [hshow.2]
  · unfold initAsync
    simp only []
    rw [h2]
    refine ⟨?_, ?_, ?_⟩
    · simp [initBoot, bootState]
    · simp [initBoot, bootState]
    · simp [initBoot, bootState]
  · unfold initAsync
    simp only []
    exact ⟨by simp [initBoot, bootState], by simp [initBoot, bootState],
      by simp [initBoot, bootState]⟩

theorem initAsync_rehydration_witness :
    ((initAsync (some "t1") (.ok (JVal.jobj [("__interrupt__",
          JVal.jobj [("kind", JVal.jstr "approval_request"),
            ("question", JVal.jstr "Approve?")])]))).uiState = .waiting_approval ∧
     (initAsync (some "t1") (.ok (JVal.jobj [("__interrupt__",
          JVal.jobj [("kind", JVal.jstr "approval_request"),
            ("question", JVal.jstr "Approve?")])]))).threadId = some "t1" ∧
     (initAsync (some "t1") (.ok (JVal.jobj [("__interrupt__",
          JVal.jobj [("kind", JVal.jstr "approval_request"),
            ("question", JVal.jstr "Approve?")])]))).storedThreadId = some "t1" ∧
     (initAsync (some "t1") (.ok (JVal.jobj [("__interrupt__",
          JVal.jobj [("kind", JVal.jstr "approval_request"),
            ("question", JVal.jstr "Approve?")])]))).errorBanner = none ∧
     (initAsync (some "t1") (.ok (JVal.jobj [("__interrupt__",
          JVal.jobj [("kind", JVal.jstr "approval_request"),
            ("question", JVal.jstr "Approve?")])]))).question
       = (showApprovalIfNeeded (JVal.jobj [("kind", JVal.jstr "approval_request"),
            ("question", JVal.jstr "Approve?")]) (bootState none)).question ∧
     (initAsync (some "t1") (.ok (JVal.jobj [("__interrupt__",
          JVal.jobj [("kind", JVal.jstr "approval_request"),
            ("question", JVal.jstr "Approve?")])]))).preview
       = (showApprovalIfNeeded (JVal.jobj [("kind", JVal.jstr "approval_request"),
            ("question", JVal.jstr "Approve?")]) (bootState none)).preview) ∧
    ((initAsync (some "t1") (.ok (JVal.jobj []))).storedThreadId = none ∧
     (initAsync (some "t1") (.ok (JVal.jobj []))).uiState = .idle ∧
     (initAsync (some "t1") (.ok (JVal.jobj []))).errorBanner = none) ∧
    ((initAsync (some "t1") (.error "boom")).storedThreadId = none ∧
     (initAsync (some "t1") (.error "boom")).uiState = .idle ∧
     (initAsync (some "t1") (.error "boom")).errorBanner = none) :=
  initAsync_rehydration "t1"
    (JVal.jobj [("__interrupt__", JVal.jobj [("kind", JVal.jstr "approval_request"),
      ("question", JVal.jstr "Approve?")])])
    (JVal.jobj [])
    (JVal.jobj [("kind", JVal.jstr "approval_request"), ("question", JVal.jstr "Approve?")])
    "boom" (bootState none) rfl rfl (by simp [bootState])

theorem exists_not_ws_dropWhile (l : List Char) :
    (∃ x ∈ l.dropWhile isJsWs, isJsWs x = false) ↔ ∃ x ∈ l, isJsWs x = false := by
  constructor
  · rintro ⟨x, hx, hw⟩
    exact ⟨x, (List.dropWhile_sublist isJsWs).subset hx, hw⟩
  · rintro ⟨x, hx, hw⟩
    rw [← List.takeWhile_append_dropWhile isJsWs l] at hx
    rcases List.mem_append.mp hx with h | h
    · exact absurd (List.mem_takeWhile_imp h) (by simp [hw])
    · exact ⟨x, h, hw⟩

theorem jsTrimL_ne_nil_iff (l : List Char) :
    jsTrimL l ≠ [] ↔ ∃ c ∈ l, isJsWs c = false := by
  unfold jsTrimL
  rw [ne_eq, List.reverse_eq_nil_iff, List.dropWhile_eq_nil_iff]
  push_neg
  simp only [List.mem_reverse, Bool.not_eq_true]
  exact exists_not_ws_dropWhile l

theorem jsTrimS_ne_empty_iff (s : String) :
    jsTrimS s ≠ "" ↔ ∃ c ∈ s.data, isJsWs c = false := by
  unfold jsTrimS
  rw [← jsTrimL_ne_nil_iff s.data]
  constructor
  · intro h h2
    exact h (by rw [h2])
  · intro h h2
    exact h (congrArg String.data h2)

theorem getField_truthy (v : JVal) (k : String) (x : JVal) (h : getField v k = some x) :
    truthy v = true := by
  cases v <;> simp_all [getField, truthy]

/-- C10: `extractFinalReportFromThread` returns the report string only
when `values.final_report` is a string with at least one
non-whitespace character; when the field is absent, not a string, or
consists of whitespace only, it returns the empty string — and in the
latter case a completed run resolves to the done (empty) variant,
showing the fixed placeholder rather than the whitespace report. -/
theorem extractFinalReport_whitespace (t tw tn : JVal) (s sw : String) (env : RunEnv)
    (st : AppState) (id : String)
    (hf : (getField t "values").bind (fun v => getField v "final_report")
        = some (JVal.jstr s))
    (hnw : ∃ c ∈ s.data, isJsWs c = false)
    (hfw : (getField tw "values").bind (fun v => getField v "final_report")
        = some (JVal.jstr sw))
    (hww : ∀ c ∈ sw.data, isJsWs c = true)
    (hn : ∀ s2, (getField tn "values").bind (fun v => getField v "final_report")
        ≠ some (JVal.jstr s2))
    (hok : createThread env.createResp = .ok id)
    (hstream : env.streamErr = none)
    (hfetch : env.fetchRes = .ok tw)
    (hni : extractInterruptPayload tw = none) :
    extractFinalReportFromThread t = s ∧
    extractFinalReportFromThread tw = "" ∧
    extractFinalReportFromThread tn = "" ∧
    (start env st).uiState = .done ∧
    (start env st).reportText = some noReportMsgStart := by
  have hrep1 : extractFinalReportFromThread t = s := by
    rcases Option.bind_eq_some.mp hf with ⟨v, hv1, hv2⟩
    unfold extractFinalReportFromThread
    rw [hv1]
    simp only []
    rw [if_pos (getField_truthy v "final_report" (JVal.jstr s) hv2), hv2]
    simp only []
    rw [if_pos ((jsTrimS_ne_empty_iff s).mpr hnw)]
  have hrep2 : extractFinalReportFromThread tw = "" := by
    rcases Option.bind_eq_some.mp hfw with ⟨v, hv1, hv2⟩
    unfold extractFinalReportFromThread
    rw [hv1]
    simp only []
    rw [if_pos (getField_truthy v "final_report" (JVal.jstr sw) hv2), hv2]
    simp only []
    rw [if_neg ?_]
    intro hne
    rcases (jsTrimS_ne_empty_iff sw).mp hne with ⟨c, hc, hcf⟩
    rw [hww c hc] at hcf
    exact Bool.noConfusion hcf
  have hrep3 : extractFinalReportFromThread tn = "" := by
    unfold extractFinalReportFromThread
    rcases hv1 : getField tn "values" with _ | v
    · rfl
    · simp only []
      by_cases ht : truthy v = true
      · rw [if_pos ht]
        rcases hv2 : getField v "final_report" with _ | w
        · rfl
        · cases w with
          | jstr s2 =>
            exact absurd (Option.bind_eq_some.mpr ⟨v, hv1, hv2⟩) (hn s2)
          | jnull => rfl
          | jbool b => rfl
          | jnum n => rfl
          | jarr a => rfl
          | jobj o => rfl
      · rw [if_neg ht]
  refine ⟨hrep1, hrep2, hrep3, ?_⟩
  unfold start runWithUi startBody
  have he : ensureThreadIdFromServer true env.createResp (resetViewForRun (setErrorM none st))
      = .ok (id, logM
          (mkLog "THREAD" "" ("作成: thread_id=" ++ id) ("作成: thread_id=" ++ id) none)
          { resetViewForRun (setErrorM none st) with
            threadId := some id
            storedThreadId := some id }) := by
    unfold ensureThreadIdFromServer
    rw [hok]
    rfl
  rw [he]
  simp only []
  have hsp : ∃ st5, streamPhase env
      (logM (mkLog "START" "" "開始" ("開始 / thread_id=" ++ id) none)
        (setUiStateM .starting (setWorkM "-"
          (logM (mkLog "THREAD" "" ("作成: thread_id=" ++ id) ("作成: thread_id=" ++ id) none)
            { resetViewForRun (setErrorM none st) with
              threadId := some id
              storedThreadId := some id })))) = .ok st5 := by
    unfold streamPhase
    rw [hstream]
    split_ifs <;> exact ⟨_, rfl⟩
  rcases hsp with ⟨st5, hs⟩
  rw [hs]
  simp only []
  unfold finishRun
  rw [hfetch]
  simp only []
  rw [hni]
  simp only []
  rw [if_pos hrep2]
  exact ⟨rfl, rfl⟩

theorem extractFinalReport_whitespace_witness :
    extractFinalReportFromThread
        (JVal.jobj [("values", JVal.jobj [("final_report", JVal.jstr "R")])]) = "R" ∧
    extractFinalReportFromThread
        (JVal.jobj [("values", JVal.jobj [("final_report", JVal.jstr " \n ")])]) = "" ∧
    extractFinalReportFromThread (JVal.jobj []) = "" ∧
    (start ⟨⟨true, some (JVal.jstr "t9")⟩, [], none,
        .ok (JVal.jobj [("values", JVal.jobj [("final_report", JVal.jstr " \n ")])])⟩
      (bootState none)).uiState = .done ∧
    (start ⟨⟨true, some (JVal.jstr "t9")⟩, [], none,
        .ok (JVal.jobj [("values", JVal.jobj [("final_report", JVal.jstr " \n ")])])⟩
      (bootState none)).reportText = some noReportMsgStart :=
  extractFinalReport_whitespace
    (JVal.jobj [("values", JVal.jobj [("final_report", JVal.jstr "R")])])
    (JVal.jobj [("values", JVal.jobj [("final_report", JVal.jstr " \n ")])])
    (JVal.jobj []) "R" " \n "
    ⟨⟨true, some (JVal.jstr "t9")⟩, [], none,
      .ok (JVal.jobj [("values", JVal.jobj [("final_report", JVal.jstr " \n ")])])⟩
    (bootState none) "t9"
    rfl (by decide) rfl (by decide)
    (fun s2 h => by simp [getField, List.find?] at h)
    (by simp [createThread, truthy, jsToString]) rfl rfl rfl

/-- C3 counterexample: after run 2 supersedes run 1 (controller 1 is no
longer current), a late frame of controller 1 carrying an interrupt
payload is still handed to `handleSseEvent` — the `runStream` read loop
(app.js 517-525) has no controller-identity check — and it moves the run
state from `starting` to `waiting_approval`: an observable mutation by a
superseded controller, where the claim requires none. -/
theorem stale_frame_mutates_state_counterexample :
    (runTrace [.beginRun 1 "t1", .beginRun 2 "t2"] ⟨bootState none, none⟩).currentController
        = some 2 ∧
    (runTrace [.beginRun 1 "t1", .beginRun 2 "t2"] ⟨bootState none, none⟩).app.uiState
        = .starting ∧
    (stepAct (runTrace [.beginRun 1 "t1", .beginRun 2 "t2"] ⟨bootState none, none⟩)
        (.deliverFrame 1 ⟨"", "values", JVal.jobj [("__interrupt__",
          JVal.jobj [("kind", JVal.jstr "approval_request"),
            ("question", JVal.jstr "Approve?")])]⟩)).app.uiState
        = .waiting_approval :=
  ⟨rfl, rfl, rfl⟩

/-- C3 (amended): late events of a superseded controller are not
discarded before reaching the state machine — frame delivery and failure
handling are controller-blind in the source.  A stale frame carrying an
interrupt payload moves the machine to `waiting_approval` and displays
that payload's question; a stale failure (such as the abort rejection
that the supersession itself provokes in the superseded `runStream`)
sets the error state and banner.  The only identity-guarded effect is
the stream cleanup, which clears `currentController` exactly when the
finishing task owns it. -/
theorem stale_events_reach_state_machine (s s2 : SessionSt) (c c2 : Nat) (f : SseFrame)
    (p : JVal) (m : String)
    (hstale : s.currentController ≠ some c)
    (hui : s.app.uiState ≠ .waiting_approval)
    (hobj : isObjLike f.data = true)
    (hp : extractInterruptPayload f.data = some p)
    (hs2 : s2.currentController = some c2) :
    (stepAct s (.deliverFrame c f)).app.uiState = .waiting_approval ∧
    (stepAct s (.deliverFrame c f)).app.question = dispQuestion p ∧
    (stepAct s (.failRun c m)).app.uiState = .error ∧
    (stepAct s (.failRun c m)).app.errorBanner = some m ∧
    (stepAct s (.streamCleanup c)).currentController = s.currentController ∧
    (stepAct s2 (.streamCleanup c2)).currentController = none := by
  have hde : stepAct s (.deliverFrame c f) = ⟨handleSseEvent f s.app, s.currentController⟩ := rfl
  have hh : handleSseEvent f s.app = showApprovalIfNeeded p s.app := by
    unfold handleSseEvent
    rw [if_pos hobj, hp]
  have htr : truthy p = true := extract_truthy f.data p hp
  refine ⟨?_, ?_, rfl, rfl, ?_, ?_⟩
  · rw [hde]
    simp only []
    rw [hh]
    exact showApprovalIfNeeded_waiting p s.app htr
  · rw [hde]
    simp only []
    rw [hh]
    unfold showApprovalIfNeeded
    rw [if_pos htr, if_neg hui]
    rfl
  · show (if s.currentController = some c then none else s.currentController)
        = s.currentController
    rw [if_neg hstale]
  · show (if s2.currentController = some c2 then none else s2.currentController) = none
    rw [if_pos hs2]

theorem stale_events_reach_state_machine_witness :
    (stepAct ⟨bootState none, some 2⟩ (.deliverFrame 1 ⟨"", "values",
        JVal.jobj [("__interrupt__", JVal.jobj [("kind", JVal.jstr "approval_request"),
          ("question", JVal.jstr "Approve?")])]⟩)).app.uiState = .waiting_approval ∧
    (stepAct ⟨bootState none, some 2⟩ (.deliverFrame 1 ⟨"", "values",
        JVal.jobj [("__interrupt__", JVal.jobj [("kind", JVal.jstr "approval_request"),
          ("question", JVal.jstr "Approve?")])]⟩)).app.question
      = dispQuestion (JVal.jobj [("kind", JVal.jstr "approval_request"),
          ("question", JVal.jstr "Approve?")]) ∧
    (stepAct ⟨bootState none, some 2⟩ (.failRun 1 "aborted")).app.uiState = .error ∧
    (stepAct ⟨bootState none, some 2⟩ (.failRun 1 "aborted")).app.errorBanner = some "aborted" ∧
    (stepAct ⟨bootState none, some 2⟩ (.streamCleanup 1)).currentController
      = (⟨bootState none, some 2⟩ : SessionSt).currentController ∧
    (stepAct (⟨bootState none, some 3⟩ : SessionSt) (.streamCleanup 3)).currentController
      = none :=
  stale_events_reach_state_machine ⟨bootState none, some 2⟩ ⟨bootState none, some 3⟩ 1 3
    ⟨"", "values", JVal.jobj [("__interrupt__", JVal.jobj [("kind", JVal.jstr "approval_request"),
      ("question", JVal.jstr "Approve?")])]⟩
    (JVal.jobj [("kind", JVal.jstr "approval_request"), ("question", JVal.jstr "Approve?")])
    "aborted" (by simp) (by simp [bootState]) rfl rfl rfl

theorem replCRLF_of_noCR : ∀ (l : List Char), '\r' ∉ l → replCRLF l = l
  | [], _ => rfl
  | [_], _ => rfl
  | a :: b :: rest, h => by
    unfold replCRLF
    rw [if_neg ?_]
    · rw [replCRLF_of_noCR (b :: rest) (fun hm => h (List.mem_cons_of_mem a hm))]
    · rintro ⟨ha, _⟩
      exact h (ha ▸ List.mem_cons_self a (b :: rest))

theorem splitFrames_cons2 (a b : Char) (rest : List Char) :
    splitFrames (a :: b :: rest)
      = if a = '\n' ∧ b = '\n' then ([] :: (splitFrames rest).1, (splitFrames rest).2)
        else
          match splitFrames (b :: rest) with
          | (f :: fs, r) => ((a :: f) :: fs, r)
          | ([], r) => ([], a :: r) := rfl

theorem splitFrames_eq_nil : ∀ (u : List Char), (splitFrames u).1 = [] →
    splitFrames u = ([], u)
  | [], _ => rfl
  | [c], _ => rfl
  | a :: b :: rest, h => by
    rw [splitFrames_cons2] at h ⊢
    by_cases hab : a = '\n' ∧ b = '\n'
    · rw [if_pos hab] at h
      simp at h
    · rw [if_neg hab] at h ⊢
      rcases hsf : splitFrames (b :: rest) with ⟨fs, r⟩
      rw [hsf] at h
      cases fs with
      | cons f fs2 => simp at h
      | nil =>
        have h2 := splitFrames_eq_nil (b :: rest) (by rw [hsf])
        rw [hsf] at h2
        have h3 : r = b :: rest := congrArg Prod.snd h2
        rw [h3]

theorem splitFrames_residual : ∀ (u : List Char),
    (splitFrames ((splitFrames u).2)).1 = []
  | [] => rfl
  | [c] => rfl
  | a :: b :: rest => by
    by_cases hab : a = '\n' ∧ b = '\n'
    · rw [splitFrames_cons2, if_pos hab]
      exact splitFrames_residual rest
    · rw [splitFrames_cons2, if_neg hab]
      rcases hsf : splitFrames (b :: rest) with ⟨fs, r⟩
      cases fs with
      | nil =>
        simp only []
        have h2 := splitFrames_eq_nil (b :: rest) (by rw [hsf])
        rw [hsf] at h2
        have h3 : r = b :: rest := congrArg Prod.snd h2
        rw [h3]
        rw [splitFrames_cons2, if_neg hab, hsf]
      | cons f fs2 =>
        simp only []
        have h4 := splitFrames_residual (b :: rest)
        rw [hsf] at h4
        exact h4

theorem splitFrames_residual_sub : ∀ (u : List Char) (c : Char),
    c ∈ (splitFrames u).2 → c ∈ u
  | [], _, h => h
  | [_], _, h => h
  | a :: b :: rest, c, h => by
    rw [splitFrames_cons2] at h
    by_cases hab : a = '\n' ∧ b = '\n'
    · rw [if_pos hab] at h
      exact List.mem_cons_of_mem a (List.mem_cons_of_mem b (splitFrames_residual_sub rest c h))
    · rw [if_neg hab] at h
      rcases hsf : splitFrames (b :: rest) with ⟨fs, r⟩
      rw [hsf] at h
      cases fs with
      | nil =>
        simp only [] at h
        have h2 := splitFrames_eq_nil (b :: rest) (by rw [hsf])
        rw [hsf] at h2
        have h3 : r = b :: rest := congrArg Prod.snd h2
        rw [h3] at h
        exact h
      | cons f fs2 =>
        simp only [] at h
        have h4 : c ∈ (splitFrames (b :: rest)).2 := by
          rw [hsf]
          exact h
        exact List.mem_cons_of_mem a (splitFrames_residual_sub (b :: rest) c h4)

theorem splitFrames_append : ∀ (u t : List Char),
    splitFrames (u ++ t)
      = ((splitFrames u).1 ++ (splitFrames ((splitFrames u).2 ++ t)).1,
         (splitFrames ((splitFrames u).2 ++ t)).2)
  | [], t => by simp [splitFrames]
  | [c], t => by
    show splitFrames (c :: t) = _
    simp [splitFrames]
  | a :: b :: rest, t => by
    by_cases hab : a = '\n' ∧ b = '\n'
    · have lhs : splitFrames ((a :: b :: rest) ++ t)
          = ([] :: (splitFrames (rest ++ t)).1, (splitFrames (rest ++ t)).2) := by
        show splitFrames (a :: b :: (rest ++ t)) = _
        rw [splitFrames_cons2, if_pos hab]
      have rhs : splitFrames (a :: b :: rest)
          = ([] :: (splitFrames rest).1, (splitFrames rest).2) := by
        rw [splitFrames_cons2, if_pos hab]
      rw [lhs, rhs, splitFrames_append rest t]
      simp
    · rcases hsf : splitFrames (b :: rest) with ⟨fs, r⟩
      cases fs with
      | nil =>
        have h2 := splitFrames_eq_nil (b :: rest) (by rw [hsf])
        rw [hsf] at h2
        have h3 : r = b :: rest := congrArg Prod.snd h2
        have rhs : splitFrames (a :: b :: rest) = ([], a :: b :: rest) := by
          rw [splitFrames_cons2, if_neg hab, hsf]
          simp only []
          rw [h3]
        rw [rhs]
        simp
      | cons f fs2 =>
        have rhs : splitFrames (a :: b :: rest) = ((a :: f) :: fs2, r) := by
          rw [splitFrames_cons2, if_neg hab, hsf]
        have ih := splitFrames_append (b :: rest) t
        rw [hsf] at ih
        simp only [] at ih
        have lhs : splitFrames ((a :: b :: rest) ++ t)
            = ((a :: f) :: (fs2 ++ (splitFrames (r ++ t)).1), (splitFrames (r ++ t)).2) := by
          show splitFrames (a :: b :: (rest ++ t)) = _
          rw [splitFrames_cons2, if_neg hab]
          rw [show b :: (rest ++ t) = (b :: rest) ++ t from rfl, ih]
          rfl
        rw [lhs, rhs]
        simp

theorem emitFrames_append (a b : List (List Char)) :
    emitFrames (a ++ b) = emitFrames a ++ emitFrames b := by
  simp [emitFrames]

theorem foldl_decPush_acc (l : List Nat) : ∀ (x : List Char × List Nat),
    List.foldl decPush x l
      = (x.1 ++ (List.foldl decPush ([], x.2) l).1, (List.foldl decPush ([], x.2) l).2) := by
  induction l with
  | nil => intro x; simp
  | cons b l ih =>
    intro x
    simp only [List.foldl_cons]
    rw [ih (decPush x b), ih (decPush ([], x.2) b)]
    simp [decPush]

theorem decodeChunk_append (st : List Nat) (c1 c2 : List Nat) :
    decodeChunk st (c1 ++ c2)
      = ((decodeChunk st c1).1 ++ (decodeChunk (decodeChunk st c1).2 c2).1,
         (decodeChunk (decodeChunk st c1).2 c2).2) := by
  unfold decodeChunk
  rw [List.foldl_append, foldl_decPush_acc c2 (List.foldl decPush ([], st) c1)]


theorem utf8Len_two (b : Nat) (h1 : 0xC0 ≤ b) (h2 : b < 0xE0) : utf8Len b = 2 := by
  unfold utf8Len
  rw [if_neg (by omega), if_neg (by omega), if_pos h2]

theorem utf8Len_three (b : Nat) (h1 : 0xE0 ≤ b) (h2 : b < 0xF0) : utf8Len b = 3 := by
  unfold utf8Len
  rw [if_neg (by omega), if_neg (by omega), if_neg (by omega), if_pos h2]

theorem utf8Len_four (b : Nat) (h1 : 0xF0 ≤ b) (h2 : b < 0xF8) : utf8Len b = 4 := by
  unfold utf8Len
  rw [if_neg (by omega), if_neg (by omega), if_neg (by omega), if_neg (by omega), if_pos h2]

theorem isCont_true (b : Nat) (h1 : 0x80 ≤ b) (h2 : b < 0xC0) : isCont b = true := by
  unfold isCont
  rw [decide_eq_true_eq]
  exact ⟨h1, h2⟩

theorem decPush_lead (p : List Char × List Nat) (b : Nat) (h1 : 0xC0 ≤ b) (h2 : b < 0xF8)
    (hp : p.2 = []) : decPush p b = (p.1, [b]) := by
  have hl : utf8Len b ≠ 0 := by
    unfold utf8Len
    split_ifs <;> omega
  unfold decPush
  rw [hp]
  simp only [decStep, decFresh, if_neg (show ¬ b < 0x80 by omega), if_neg hl]
  simp

theorem decPush_cont_fin (p : List Char × List Nat) (l : Nat) (pend : List Nat) (b : Nat)
    (h1 : 0x80 ≤ b) (h2 : b < 0xC0) (hp : p.2 = l :: pend)
    (hl : (l :: pend).length + 1 = utf8Len l) :
    decPush p b = (p.1 ++ [decodeSeq ((l :: pend) ++ [b])], []) := by
  unfold decPush
  rw [hp]
  have hc : pend.length + 1 + 1 = utf8Len l := by
    simp only [List.length_cons] at hl
    omega
  simp only [decStep, isCont_true b h1 h2, if_true]
  rw [if_pos (show (l :: pend ++ [b]).length = utf8Len l by
    simp only [List.cons_append, List.length_cons, List.length_append, List.length_nil]
    omega)]

theorem decPush_cont_mid (p : List Char × List Nat) (l : Nat) (pend : List Nat) (b : Nat)
    (h1 : 0x80 ≤ b) (h2 : b < 0xC0) (hp : p.2 = l :: pend)
    (hl : (l :: pend).length + 1 ≠ utf8Len l) :
    decPush p b = (p.1, (l :: pend) ++ [b]) := by
  unfold decPush
  rw [hp]
  have hc : pend.length + 1 + 1 ≠ utf8Len l := by
    simp only [List.length_cons] at hl
    omega
  simp only [decStep, isCont_true b h1 h2, if_true]
  rw [if_neg (show ¬ (l :: pend ++ [b]).length = utf8Len l by
    simp only [List.cons_append, List.length_cons, List.length_append, List.length_nil]
    omega)]
  simp

theorem decodeChar_encode (c : Char) : decodeChunk [] (encodeChar c) = ([c], []) := by
  have hv : c.toNat < 0x110000 := by
    have h := c.valid
    unfold UInt32.isValidChar Nat.isValidChar at h
    unfold Char.toNat
    omega
  simp only [encodeChar]
  by_cases h1 : c.toNat < 0x80
  · rw [if_pos h1]
    unfold decodeChunk
    simp only [List.foldl_cons, List.foldl_nil, decPush, decStep, decFresh, if_pos h1]
    simp [Char.ofNat_toNat]
  · rw [if_neg h1]
    by_cases h2 : c.toNat < 0x800
    · rw [if_pos h2]
      unfold decodeChunk
      simp only [List.foldl_cons, List.foldl_nil]
      rw [decPush_lead ([], []) (0xC0 + c.toNat / 64) (by omega) (by omega) rfl]
      rw [decPush_cont_fin _ (0xC0 + c.toNat / 64) [] (0x80 + c.toNat % 64) (by omega) (by omega) rfl
        (by rw [utf8Len_two _ (by omega) (by omega)]; simp)]
      have he : (0xC0 + c.toNat / 64 - 0xC0) * 64 + (0x80 + c.toNat % 64 - 0x80)
          = c.toNat := by omega
      simp only [List.nil_append, List.singleton_append, decodeSeq, he]
      simp [Char.ofNat_toNat]
    · rw [if_neg h2]
      by_cases h3 : c.toNat < 0x10000
      · rw [if_pos h3]
        unfold decodeChunk
        simp only [List.foldl_cons, List.foldl_nil]
        rw [decPush_lead ([], []) (0xE0 + c.toNat / 4096) (by omega) (by omega) rfl]
        rw [decPush_cont_mid _ (0xE0 + c.toNat / 4096) [] (0x80 + c.toNat / 64 % 64)
          (by omega) (by omega) rfl (by rw [utf8Len_three _ (by omega) (by omega)]; simp)]
        rw [decPush_cont_fin _ (0xE0 + c.toNat / 4096) [0x80 + c.toNat / 64 % 64]
          (0x80 + c.toNat % 64) (by omega) (by omega) rfl
          (by rw [utf8Len_three _ (by omega) (by omega)]; simp)]
        have he : (0xE0 + c.toNat / 4096 - 0xE0) * 4096
            + (0x80 + c.toNat / 64 % 64 - 0x80) * 64 + (0x80 + c.toNat % 64 - 0x80)
            = c.toNat := by omega
        simp only [List.nil_append, List.cons_append, decodeSeq, he]
        simp [Char.ofNat_toNat]
      · rw [if_neg h3]
        unfold decodeChunk
        simp only [List.foldl_cons, List.foldl_nil]
        rw [decPush_lead ([], []) (0xF0 + c.toNat / 0x40000) (by omega) (by omega) rfl]
        rw [decPush_cont_mid _ (0xF0 + c.toNat / 0x40000) [] (0x80 + c.toNat / 4096 % 64)
          (by omega) (by omega) rfl (by rw [utf8Len_four _ (by omega) (by omega)]; simp)]
        rw [decPush_cont_mid _ (0xF0 + c.toNat / 0x40000) [0x80 + c.toNat / 4096 % 64]
          (0x80 + c.toNat / 64 % 64) (by omega) (by omega) rfl
          (by rw [utf8Len_four _ (by omega) (by omega)]; simp)]
        rw [decPush_cont_fin _ (0xF0 + c.toNat / 0x40000)
          [0x80 + c.toNat / 4096 % 64, 0x80 + c.toNat / 64 % 64]
          (0x80 + c.toNat % 64) (by omega) (by omega) rfl
          (by rw [utf8Len_four _ (by omega) (by omega)]; simp)]
        have he : (0xF0 + c.toNat / 0x40000 - 0xF0) * 0x40000
            + (0x80 + c.toNat / 4096 % 64 - 0x80) * 4096
            + (0x80 + c.toNat / 64 % 64 - 0x80) * 64 + (0x80 + c.toNat % 64 - 0x80)
            = c.toNat := by omega
        simp only [List.nil_append, List.cons_append, decodeSeq, he]
        simp [Char.ofNat_toNat]

theorem decode_encode_list : ∀ (l : List Char),
    decodeChunk [] ((l.map encodeChar).flatten) = (l, [])
  | [] => rfl
  | c :: l => by
    simp only [List.map_cons, List.flatten_cons]
    rw [decodeChunk_append, decodeChar_encode]
    simp only []
    rw [decode_encode_list l]
    simp

theorem decode_encode (s : String) : decodeChunk [] (utf8Encode s) = (s.data, []) := by
  unfold utf8Encode
  exact decode_encode_list s.data

theorem foldl_processChunk_spec : ∀ (chunks : List (List Nat)) (st : RunStreamSt),
    (∀ c, c ∈ st.buf → c ≠ '\r') →
    (∀ c, c ∈ (decodeChunk st.dec chunks.flatten).1 → c ≠ '\r') →
    splitFrames st.buf = ([], st.buf) →
    chunks.foldl processChunk st
      = ⟨(decodeChunk st.dec chunks.flatten).2,
         (splitFrames (st.buf ++ (decodeChunk st.dec chunks.flatten).1)).2,
         st.frames ++ emitFrames (splitFrames (st.buf ++ (decodeChunk st.dec chunks.flatten).1)).1⟩
  | [], st, hb, hd, hsp => by
    simp only [List.foldl_nil, List.flatten_nil]
    simp only [decodeChunk, List.foldl_nil, List.append_nil]
    rw [hsp]
    simp [emitFrames]
  | ch :: chunks, st, hb, hd, hsp => by
    simp only [List.foldl_cons, List.flatten_cons]
    simp only [List.flatten_cons] at hd
    have hdc := decodeChunk_append st.dec ch chunks.flatten
    have ht1 : ∀ c, c ∈ (decodeChunk st.dec ch).1 → c ≠ '\r' := by
      intro c hc
      exact hd c (by rw [hdc]; exact List.mem_append_left _ hc)
    have ht2 : ∀ c, c ∈ (decodeChunk (decodeChunk st.dec ch).2 chunks.flatten).1 → c ≠ '\r' := by
      intro c hc
      exact hd c (by rw [hdc]; exact List.mem_append_right _ hc)
    have hbuf1 : ∀ c, c ∈ st.buf ++ (decodeChunk st.dec ch).1 → c ≠ '\r' := by
      intro c hc
      rcases List.mem_append.1 hc with h | h
      · exact hb c h
      · exact ht1 c h
    have hrepl : replCRLF (st.buf ++ (decodeChunk st.dec ch).1)
        = st.buf ++ (decodeChunk st.dec ch).1 :=
      replCRLF_of_noCR _ (fun hmem => hbuf1 '\r' hmem rfl)
    have hpc : processChunk st ch
        = ⟨(decodeChunk st.dec ch).2,
           (splitFrames (st.buf ++ (decodeChunk st.dec ch).1)).2,
           st.frames ++ emitFrames (splitFrames (st.buf ++ (decodeChunk st.dec ch).1)).1⟩ := by
      unfold processChunk
      rw [hrepl]
    have hb1 : ∀ c, c ∈ (splitFrames (st.buf ++ (decodeChunk st.dec ch).1)).2 → c ≠ '\r' := by
      intro c hc
      exact hbuf1 c (splitFrames_residual_sub _ c hc)
    have hsp1 : splitFrames ((splitFrames (st.buf ++ (decodeChunk st.dec ch).1)).2)
        = ([], (splitFrames (st.buf ++ (decodeChunk st.dec ch).1)).2) :=
      splitFrames_eq_nil _ (splitFrames_residual _)
    have ih := foldl_processChunk_spec chunks (processChunk st ch)
      (by rw [hpc]; exact hb1) (by rw [hpc]; exact ht2) (by rw [hpc]; exact hsp1)
    rw [ih, hpc]
    simp only []
    rw [hdc]
    simp only []
    rw [show st.buf ++ ((decodeChunk st.dec ch).1
          ++ (decodeChunk (decodeChunk st.dec ch).2 chunks.flatten).1)
        = (st.buf ++ (decodeChunk st.dec ch).1)
          ++ (decodeChunk (decodeChunk st.dec ch).2 chunks.flatten).1
      from (List.append_assoc _ _ _).symm]
    rw [splitFrames_append (st.buf ++ (decodeChunk st.dec ch).1)
      (decodeChunk (decodeChunk st.dec ch).2 chunks.flatten).1]
    rw [emitFrames_append]
    simp [List.append_assoc]

/-- C1: frame reassembly is invariant under chunk-boundary splits only on
carriage-return-free decoded streams: for two chunkings of the same byte
sequence whose incremental decoding contains no CR, `runStream` delivers the
same frame sequence, namely the frames of the blank-line split of the whole
decoded text, with unterminated trailing bytes never emitted.  (The unamended
claim, invariance for every byte sequence, is refuted by
`runStream_chunk_counterexample`: the per-chunk CRLF normalisation pass
re-scans the buffered residual, so a lone CR already in the buffer merges
with a later LF.) -/
theorem runStream_chunk_invariance (chunks chunks2 : List (List Nat))
    (hflat : chunks.flatten = chunks2.flatten)
    (hcr : ∀ c, c ∈ (decodeChunk [] chunks.flatten).1 → c ≠ '\r') :
    runStreamFrames chunks = runStreamFrames chunks2
      ∧ runStreamFrames chunks
          = emitFrames (splitFrames ((decodeChunk [] chunks.flatten).1)).1 := by
  have h1 := foldl_processChunk_spec chunks ⟨[], [], []⟩
    (by intro c hc; cases hc) hcr rfl
  have h2 := foldl_processChunk_spec chunks2 ⟨[], [], []⟩
    (by intro c hc; cases hc) (by rw [← hflat]; exact hcr) rfl
  unfold runStreamFrames
  rw [h1, h2, hflat]
  simp

/-- Counterexample to unamended C1: the byte stream of
`"data:a\n\r\r\ndata:b\n\n"` delivered as one chunk yields a different frame
list than the same bytes split after the first CR, because the second
normalisation pass over the re-buffered text collapses the CR with the
following LF into a frame boundary. -/
theorem runStream_chunk_counterexample :
    (([utf8Encode "data:a\n\r\r\ndata:b\n\n"] : List (List Nat)).flatten
      = ([utf8Encode "data:a\n\r\r\n", utf8Encode "data:b\n\n"] : List (List Nat)).flatten)
    ∧ runStreamFrames [utf8Encode "data:a\n\r\r\ndata:b\n\n"]
      ≠ runStreamFrames [utf8Encode "data:a\n\r\r\n", utf8Encode "data:b\n\n"] := by
  refine ⟨by decide, fun h => ?_⟩
  have hl := congrArg List.length h
  rw [show (runStreamFrames [utf8Encode "data:a\n\r\r\ndata:b\n\n"]).length = 1 from by decide,
    show (runStreamFrames [utf8Encode "data:a\n\r\r\n",
      utf8Encode "data:b\n\n"]).length = 2 from by decide] at hl
  exact absurd hl (by decide)

/-- The invariance theorem applied to a concrete CR-free stream whose
three-byte character is split across the chunk boundary. -/
theorem runStream_chunk_invariance_witness :
    (([(utf8Encode "data:\u3042\n\n").take 6, (utf8Encode "data:\u3042\n\n").drop 6]
        : List (List Nat)).flatten = ([utf8Encode "data:\u3042\n\n"] : List (List Nat)).flatten)
    ∧ (∀ c, c ∈ (decodeChunk []
        (([(utf8Encode "data:\u3042\n\n").take 6, (utf8Encode "data:\u3042\n\n").drop 6]
          : List (List Nat)).flatten)).1 → c ≠ '\r')
    ∧ runStreamFrames [(utf8Encode "data:\u3042\n\n").take 6,
        (utf8Encode "data:\u3042\n\n").drop 6]
      = runStreamFrames [utf8Encode "data:\u3042\n\n"] := by
  have hflat : (([(utf8Encode "data:\u3042\n\n").take 6, (utf8Encode "data:\u3042\n\n").drop 6]
      : List (List Nat)).flatten) = ([utf8Encode "data:\u3042\n\n"] : List (List Nat)).flatten := by
    simp
  have hcr : ∀ c, c ∈ (decodeChunk []
      (([(utf8Encode "data:\u3042\n\n").take 6, (utf8Encode "data:\u3042\n\n").drop 6]
        : List (List Nat)).flatten)).1 → c ≠ '\r' := by
    rw [hflat]
    rw [show ([utf8Encode "data:\u3042\n\n"] : List (List Nat)).flatten
        = utf8Encode "data:\u3042\n\n" from by simp]
    rw [decode_encode]
    decide
  exact ⟨hflat, hcr, (runStream_chunk_invariance _ _ hflat hcr).1⟩

end App
